import Mathlib

/-!
# SFBAudioEngine: Musepack metadata adapter and the TagLib string bridge

A shallow embedding of `Metadata/MusepackMetadata.cpp` and
`Metadata/TagLibStringUtilities.cpp`.

Core Foundation objects are modelled by their contents: a `CFString` is its
sequence of UTF-16 code units, a nullable reference is an `Option`, and a
mutable dictionary is an association list that is passed in and handed back.
C strings are byte sequences in UTF-8, and the `std::vector<char>` of the
string bridge is its allocation, cell by cell. TagLib and the file system are
outside the repository; they enter through the `Env` record, one field per
external function the adapter calls.
-/

namespace SFB

/-! ## Core Foundation strings -/

/-- A UTF-16 code unit (`UniChar`), a number below 65536; a larger number
stands for no code unit and is never converted. -/
abbrev UniChar := Nat

/-- A CFString, by content: its sequence of UTF-16 code units. Nothing
requires a surrogate code unit to have its partner. -/
abbrev CFString := List UniChar

/-- A `CFStringRef` is a pointer; `none` is the null reference. -/
abbrev CFStringRef := Option CFString

/-- The UTF-16 form of a Unicode scalar value: one code unit, or a surrogate
pair above U+FFFF. -/
def utf16EncodeChar (c : Char) : List UniChar :=
  if c.toNat < 0x10000 then [c.toNat]
  else [0xD800 + (c.toNat - 0x10000) / 0x400, 0xDC00 + (c.toNat - 0x10000) % 0x400]

/-- The UTF-16 form of a text. -/
def utf16Encode : List Char → CFString
  | [] => []
  | c :: cs => utf16EncodeChar c ++ utf16Encode cs

/-- `CFSTR("...")`: the constant CFString with the given text. -/
def CFSTR (cStr : String) : CFString := utf16Encode cStr.data

/-- The characters of the longest leading part of a CFString that can be
converted to another encoding without loss: conversion stops at the first
surrogate code unit that has no partner. -/
def convertiblePrefix : CFString → List Char
  | [] => []
  | u :: rest =>
    if u < 0xD800 then Char.ofNat u :: convertiblePrefix rest
    else if u < 0xDC00 then
      match rest with
      | l :: rest1 =>
        if 0xDC00 ≤ l ∧ l < 0xE000 then
          Char.ofNat (0x10000 + (u - 0xD800) * 0x400 + (l - 0xDC00)) :: convertiblePrefix rest1
        else []
      | [] => []
    else if u < 0xE000 then []
    else if u < 0x10000 then Char.ofNat u :: convertiblePrefix rest
    else []

/-- A CFString without an unpaired surrogate: converting it covers the whole
string, so it is the UTF-16 form of the characters converted. -/
def HasNoUnpairedSurrogate (s : CFString) : Prop := utf16Encode (convertiblePrefix s) = s

instance (s : CFString) : Decidable (HasNoUnpairedSurrogate s) :=
  inferInstanceAs (Decidable (utf16Encode (convertiblePrefix s) = s))

/-! ## UTF-8 -/

/-- The UTF-8 bytes of a Unicode scalar value. -/
def utf8EncodeChar (c : Char) : List Nat :=
  if c.toNat < 0x80 then [c.toNat]
  else if c.toNat < 0x800 then [0xC0 + c.toNat / 0x40, 0x80 + c.toNat % 0x40]
  else if c.toNat < 0x10000 then
    [0xE0 + c.toNat / 0x1000, 0x80 + c.toNat / 0x40 % 0x40, 0x80 + c.toNat % 0x40]
  else
    [0xF0 + c.toNat / 0x40000, 0x80 + c.toNat / 0x1000 % 0x40, 0x80 + c.toNat / 0x40 % 0x40,
      0x80 + c.toNat % 0x40]

/-- The UTF-8 bytes of a text. -/
def utf8Encode : List Char → List Nat
  | [] => []
  | c :: cs => utf8EncodeChar c ++ utf8Encode cs

/-- A continuation byte, `10xxxxxx`. -/
def isContinuationByte (b : Nat) : Bool := decide (0x80 ≤ b ∧ b < 0xC0)

/-- Decoding of UTF-8 bytes: the characters decoded before the first
ill-formed sequence, and whether all bytes were decoded. Overlong forms,
surrogates and values above U+10FFFF are ill-formed. -/
def utf8Decode : List Nat → List Char × Bool
  | [] => ([], true)
  | b0 :: rest =>
    if b0 < 0x80 then
      (Char.ofNat b0 :: (utf8Decode rest).1, (utf8Decode rest).2)
    else if b0 < 0xC2 then ([], false)
    else if b0 < 0xE0 then
      match rest with
      | b1 :: rest1 =>
        if isContinuationByte b1 then
          (Char.ofNat ((b0 - 0xC0) * 0x40 + (b1 - 0x80)) :: (utf8Decode rest1).1,
            (utf8Decode rest1).2)
        else ([], false)
      | [] => ([], false)
    else if b0 < 0xF0 then
      match rest with
      | b1 :: b2 :: rest2 =>
        if isContinuationByte b1 ∧ isContinuationByte b2
            ∧ 0x800 ≤ (b0 - 0xE0) * 0x1000 + (b1 - 0x80) * 0x40 + (b2 - 0x80)
            ∧ ¬ (0xD800 ≤ (b0 - 0xE0) * 0x1000 + (b1 - 0x80) * 0x40 + (b2 - 0x80)
              ∧ (b0 - 0xE0) * 0x1000 + (b1 - 0x80) * 0x40 + (b2 - 0x80) < 0xE000) then
          (Char.ofNat ((b0 - 0xE0) * 0x1000 + (b1 - 0x80) * 0x40 + (b2 - 0x80))
              :: (utf8Decode rest2).1,
            (utf8Decode rest2).2)
        else ([], false)
      | _ => ([], false)
    else if b0 < 0xF5 then
      match rest with
      | b1 :: b2 :: b3 :: rest3 =>
        if isContinuationByte b1 ∧ isContinuationByte b2 ∧ isContinuationByte b3
            ∧ 0x10000 ≤ (b0 - 0xF0) * 0x40000 + (b1 - 0x80) * 0x1000 + (b2 - 0x80) * 0x40
                + (b3 - 0x80)
            ∧ (b0 - 0xF0) * 0x40000 + (b1 - 0x80) * 0x1000 + (b2 - 0x80) * 0x40 + (b3 - 0x80)
                < 0x110000 then
          (Char.ofNat ((b0 - 0xF0) * 0x40000 + (b1 - 0x80) * 0x1000 + (b2 - 0x80) * 0x40
                + (b3 - 0x80)) :: (utf8Decode rest3).1,
            (utf8Decode rest3).2)
        else ([], false)
      | _ => ([], false)
    else ([], false)

/-! ## Core Foundation dictionaries and comparison -/

/-- The values the adapter stores in a dictionary: strings and numbers. -/
inductive CFType where
  | string (s : CFString)
  | number (n : Int)
  deriving DecidableEq, Repr

/-- A mutable CF dictionary with string keys, by content. -/
abbrev CFDictionary := List (CFString × CFType)

/-- The value stored under `key`, if any. -/
def CFDictionaryGetValue : CFDictionary → CFString → Option CFType
  | [], _ => none
  | (k, v) :: rest, key => if k = key then some v else CFDictionaryGetValue rest key

/-- Store `value` under `key`, replacing the value of an existing entry. -/
def CFDictionarySetValue : CFDictionary → CFString → CFType → CFDictionary
  | [], key, value => [(key, value)]
  | (k, v) :: rest, key, value =>
    if k = key then (key, value) :: rest else (k, v) :: CFDictionarySetValue rest key value

/-- Remove every entry. -/
def CFDictionaryRemoveAllValues (_ : CFDictionary) : CFDictionary := []

/-- The result of a CF comparison. -/
inductive CFComparisonResult where
  | kCFCompareLessThan
  | kCFCompareEqualTo
  | kCFCompareGreaterThan
  deriving DecidableEq, Repr

/-- Comparison option flags, a bit set. -/
abbrev CFStringCompareFlags := Nat

/-- The case-insensitive comparison flag. -/
def kCFCompareCaseInsensitive : CFStringCompareFlags := 1

/-- Simple case folding of a code unit: the letters A to Z go to a to z. -/
def foldCaseUnit (u : UniChar) : UniChar := if 0x41 ≤ u ∧ u ≤ 0x5A then u + 0x20 else u

/-- Simple case folding of a string, code unit by code unit. -/
def foldCase (s : CFString) : CFString := s.map foldCaseUnit

/-- Lexicographic order on code-unit sequences. -/
def lexLess : List UniChar → List UniChar → Bool
  | [], [] => false
  | [], _ :: _ => true
  | _ :: _, [] => false
  | a :: as, b :: bs =>
    if a < b then true
    else if a = b then lexLess as bs
    else false

/-- `CFStringCompare`: both strings are case-folded when the case-insensitive
flag is set, and then compared in lexicographic order. -/
def CFStringCompare (a b : CFString) (compareOptions : CFStringCompareFlags) :
    CFComparisonResult :=
  let a1 := if compareOptions % 2 = 1 then foldCase a else a
  let b1 := if compareOptions % 2 = 1 then foldCase b else b
  if a1 = b1 then .kCFCompareEqualTo
  else if lexLess a1 b1 then .kCFCompareLessThan
  else .kCFCompareGreaterThan

/-! ## C strings, `std::vector<char>` and `TagLib::String` -/

/-- A `TagLib::String`, by content: its text. -/
abbrev TagLibString := String

/-- The character U+0000, whose UTF-8 form is the terminator of a C string. -/
def NUL : Char := Char.ofNat 0

/-- What a reader of a NUL-terminated `char *` sees in a byte sequence: the
bytes before the first zero byte. -/
def readCString (buf : List Nat) : List Nat := buf.takeWhile (fun b => b != 0)

/-- What `CFStringGetBytes` hands back: the number of characters (code units)
converted, the number of bytes their conversion takes, and the bytes written
to the buffer, none when the buffer is null. -/
structure ConvertedBytes where
  converted : Nat
  usedBufLen : Nat
  bytes : List Nat
  deriving DecidableEq, Repr

/-- The longest leading part of a text whose UTF-8 form fits in `maxBufLen`
bytes. -/
def fittingPrefix (maxBufLen : Nat) : List Char → List Char
  | [] => []
  | c :: cs =>
    if (utf8EncodeChar c).length ≤ maxBufLen then
      c :: fittingPrefix (maxBufLen - (utf8EncodeChar c).length) cs
    else []

/-- `CFStringGetBytes(theString, CFRangeMake(0, length), kCFStringEncodingUTF8,
0, false, buffer, maxBufLen, &usedBufLen)`. With loss byte 0 the conversion
stops at the first character that cannot be converted. With a null buffer
(`buffer = false`) `maxBufLen` is ignored and only the lengths are
computed; otherwise the conversion also stops where the buffer is full. -/
def CFStringGetBytes (theString : CFString) (buffer : Bool) (maxBufLen : Nat) :
    ConvertedBytes :=
  let text :=
    if buffer then fittingPrefix maxBufLen (convertiblePrefix theString)
    else convertiblePrefix theString
  { converted := (utf16Encode text).length
    usedBufLen := (utf8Encode text).length
    bytes := if buffer then utf8Encode text else [] }

/-- A `std::vector<char>`: its size and its allocation, one cell per byte of
capacity; a cell nothing has been written to is `none`. -/
structure CharVector where
  size : Nat
  storage : List (Option Nat)
  deriving DecidableEq, Repr

/-- A default-constructed vector. -/
def CharVector.new : CharVector := { size := 0, storage := [] }

/-- `reserve(n)`: the capacity grows to at least `n`; the size stays. -/
def CharVector.reserve (v : CharVector) (n : Nat) : CharVector :=
  if v.storage.length < n then
    { v with storage := v.storage ++ List.replicate (n - v.storage.length) none }
  else v

/-- `v[i]`: the address of element `i`, as an offset into the allocation.
An index not below `size()` is outside the contract of `operator[]`: a
library built with bounds checks stops the program there (`none`); one built
without them computes the address, which is usable as long as it lies in
the allocation. -/
def CharVector.element (boundsChecked : Bool) (v : CharVector) (i : Nat) : Option Nat :=
  if boundsChecked ∧ v.size ≤ i then none
  else if i < v.storage.length then some i
  else none

/-- Writing bytes through a pointer into an allocation; `none` when the write
runs past the end of the allocation. -/
def storeBytes (storage : List (Option Nat)) (p : Nat) (bytes : List Nat) :
    Option (List (Option Nat)) :=
  if p + bytes.length ≤ storage.length then
    some (storage.take p ++ bytes.map some ++ storage.drop (p + bytes.length))
  else none

/-- Reading a NUL-terminated string from memory cells: the bytes before the
first zero byte; `none` when the read meets a cell never written or the end
of the allocation first. -/
def loadCString : List (Option Nat) → Option (List Nat)
  | [] => none
  | none :: _ => none
  | some b :: rest => if b = 0 then some [] else (loadCString rest).map (fun bs => b :: bs)

/-- `TagLib::String(const char *, String::UTF8)`, given the bytes of the C
string: the text decoded from them. -/
def TagLibStringOfCString (cStr : List Nat) : TagLibString := String.mk (utf8Decode cStr).1

/-- `TagLib::String::toCString(true)`: the UTF-8 bytes of the text followed
by a terminator. -/
def toCString (value : TagLibString) : List Nat := utf8Encode value.data ++ [0]

/-- `CFStringCreateWithCString(kCFAllocatorDefault, cStr,
kCFStringEncodingUTF8)`; `none` is the null result, for bytes that are not
UTF-8. -/
def CFStringCreateWithCString (cStr : List Nat) : CFStringRef :=
  if (utf8Decode (readCString cStr)).2 then some (utf16Encode (utf8Decode (readCString cStr)).1)
  else none

end SFB

namespace TagLib

open SFB

/-- `TagLib::StringFromCFString` (TagLibStringUtilities.cpp, lines 33-58).
`boundsChecked` tells how the standard library was built. The result is
`none` when the call does not return a string. -/
def StringFromCFString (boundsChecked : Bool) (s : CFStringRef) : Option TagLibString :=
  match s with
  | none => some ""
  | some s =>
    -- Determine the length of the string in UTF-8
    let count := (CFStringGetBytes s false 0).usedBufLen
    let buf := CharVector.new
    let buf := buf.reserve (count + 1)
    -- Convert it
    match buf.element boundsChecked 0 with
    | none => none
    | some p =>
      let conversion := CFStringGetBytes s true count
      let used := conversion.usedBufLen
      -- (a warning is logged when conversion.converted is not the length of s)
      match storeBytes buf.storage p conversion.bytes with
      | none => none
      | some storage =>
        let buf := { buf with storage := storage }
        -- Add terminator
        match buf.element boundsChecked used with
        | none => none
        | some q =>
          match storeBytes buf.storage q [0] with
          | none => none
          | some storage =>
            let buf := { buf with storage := storage }
            match buf.element boundsChecked 0 with
            | none => none
            | some p => (loadCString (buf.storage.drop p)).map TagLibStringOfCString

/-- `TagLib::AddStringToCFDictionary` (TagLibStringUtilities.cpp, lines 60-68).
The dictionary reference may be null; the dictionary is returned as the call
leaves it. -/
def AddStringToCFDictionary (d : Option CFDictionary) (key : CFStringRef)
    (value : TagLibString) : Option CFDictionary :=
  match d, key with
  | some dict, some k =>
    if value = "" then d
    else
      match CFStringCreateWithCString (toCString value) with
      | some string => some (CFDictionarySetValue dict k (CFType.string string))
      | none => d
  | _, _ => d

end TagLib


namespace SFB

open TagLib

/-! ## TagLib objects, at the interface the adapter uses -/

/-- The well-known fields of a metadata record. -/
inductive WellKnownField where
  | title
  | artist
  | album
  | year
  | trackNumber
  | genre
  | comment
  deriving DecidableEq, Repr

/-- Every well-known field, in the order the tag readers visit them. -/
def WellKnownField.all : List WellKnownField :=
  [.title, .artist, .album, .year, .trackNumber, .genre, .comment]

/-- A tag as TagLib hands it out (`TagLib::ID3v1::Tag`, `TagLib::APE::Tag`):
one text per well-known field, empty when the tag has none. -/
structure Tag where
  title : TagLibString
  artist : TagLibString
  album : TagLibString
  year : TagLibString
  trackNumber : TagLibString
  genre : TagLibString
  comment : TagLibString
  deriving DecidableEq, Repr

/-- The text a tag holds for a field. -/
def Tag.get (t : Tag) : WellKnownField → TagLibString
  | .title => t.title
  | .artist => t.artist
  | .album => t.album
  | .year => t.year
  | .trackNumber => t.trackNumber
  | .genre => t.genre
  | .comment => t.comment

/-- The numeric audio-property fields. -/
inductive AudioProperty where
  | sampleRate
  | duration
  | bitRate
  | channelCount
  deriving DecidableEq, Repr

/-- The `TagLib::AudioProperties` of a file. -/
structure AudioProperties where
  sampleRate : Nat
  duration : Nat
  bitRate : Nat
  channelCount : Nat
  deriving DecidableEq, Repr

/-- A `TagLib::MPC::File` object: validity, and the three nullable pointers
the adapter asks it for. -/
structure MPCFile where
  isValid : Bool
  audioProperties : Option AudioProperties
  ID3v1Tag : Option Tag
  APETag : Option Tag
  deriving DecidableEq, Repr

/-! ## The metadata object and its surroundings -/

/-- A URL, by its text. -/
abbrev CFURL := String

/-- A file-system path. -/
abbrev Path := String

/-- The bytes of a file. -/
abbrev FileBytes := List Nat

/-- The files on disk: the bytes under each path, `none` where there is no file. -/
abbrev Disk := Path → Option FileBytes

/-- A `TagLib::FileStream`: the path it was opened on and the mode. -/
structure FileStream where
  fileName : Path
  openReadOnly : Bool
  deriving DecidableEq, Repr

/-- The state of an `AudioMetadata` object. -/
structure AudioMetadata where
  mURL : CFURL
  mMetadata : CFDictionary
  mChangedMetadata : CFDictionary
  deriving DecidableEq, Repr

/-- A CFError, by content. -/
structure CFError where
  domain : CFString
  code : Int
  description : CFString
  url : CFURL
  failureReason : CFString
  recoverySuggestion : CFString
  deriving DecidableEq, Repr

/-- Modelled from the spec: `CreateErrorForURL` (CFErrorUtilities.h) is not
among the sources. An error carries the file path and a human-readable reason
string: the error object records every argument of the call. -/
def CreateErrorForURL (domain : CFString) (code : Int) (description : CFString)
    (url : CFURL) (failureReason : CFString) (recoverySuggestion : CFString) : CFError :=
  { domain := domain, code := code, description := description, url := url,
    failureReason := failureReason, recoverySuggestion := recoverySuggestion }

/-- The constants of AudioMetadata.h, which is not among the sources; they are
parameters of the embedding. -/
structure Constants where
  kPropertiesFormatNameKey : CFString
  propertyKey : AudioProperty → CFString
  fieldKey : WellKnownField → CFString
  AudioMetadataErrorDomain : CFString
  AudioMetadataInputOutputError : Int

/-- The functions the adapter calls and the sources do not define: Core
Foundation, TagLib, and two helpers of the repository whose bodies are
elsewhere. -/
structure Env where
  /-- `CFURLGetFileSystemRepresentation(url, false, buf, PATH_MAX)`: the path
  written to `buf`, or `none` when the call returns false. -/
  CFURLGetFileSystemRepresentation : CFURL → Option Path
  /-- `CFCopyLocalizedString(key, "")`. -/
  CFCopyLocalizedString : CFString → CFString
  /-- `TagLib::MPC::File(stream, readProperties)`: the file object TagLib
  builds from what is on disk under the stream. -/
  MPCFile_new : Disk → FileStream → Bool → MPCFile
  /-- `TagLib::MPC::File::save()`: the result, and the bytes the call leaves
  in the file the stream is open on. -/
  save : Disk → FileStream → MPCFile → Bool × Option FileBytes
  /-- `SetAPETagFromMetadata(metadata, tag)`: the tag as the setter leaves it. -/
  SetAPETagFromMetadata : AudioMetadata → Tag → Tag
  /-- `AudioMetadata::MergeChangedMetadataIntoMetadata()`. -/
  MergeChangedMetadataIntoMetadata : AudioMetadata → AudioMetadata

/-- The calls `WriteMetadata` makes on the file object and on itself, with
their arguments. -/
inductive Call where
  | SetAPETagFromMetadata (tag : Tag)
  | save (file : MPCFile)
  | MergeChangedMetadataIntoMetadata
  deriving DecidableEq, Repr

/-- A `CFErrorRef *` argument: `none` is the null pointer, `some slot` a
pointer to a slot with the given content (`none` for a null `CFErrorRef`). -/
abbrev CFErrorOut := Option (Option CFError)

/-! ## The tag readers -/

/-- Modelled from the spec: `AddAudioPropertiesToDictionary` is not among the
sources. The record holds a mapping of numeric audio-property fields (sample
rate, duration, bit rate, channel count), populated by reading. -/
def AddAudioPropertiesToDictionary (c : Constants) (dictionary : CFDictionary)
    (properties : AudioProperties) : CFDictionary :=
  let d := CFDictionarySetValue dictionary (c.propertyKey .sampleRate)
    (CFType.number properties.sampleRate)
  let d := CFDictionarySetValue d (c.propertyKey .duration) (CFType.number properties.duration)
  let d := CFDictionarySetValue d (c.propertyKey .bitRate) (CFType.number properties.bitRate)
  CFDictionarySetValue d (c.propertyKey .channelCount) (CFType.number properties.channelCount)

/-- One field of a tag goes into the dictionary through
`AddStringToCFDictionary`. -/
def addTagField (c : Constants) (tag : Tag) (d : CFDictionary) (f : WellKnownField) :
    CFDictionary :=
  (AddStringToCFDictionary (some d) (some (c.fieldKey f)) (tag.get f)).getD d

/-- Modelled from the spec: `AddID3v1TagToDictionary` is not among the
sources. The ID3v1 tag supplies its well-known fields (title, artist, album,
year, comment, genre, track), each through `AddStringToCFDictionary`. -/
def AddID3v1TagToDictionary (c : Constants) (dictionary : CFDictionary) (tag : Tag) :
    CFDictionary :=
  WellKnownField.all.foldl (addTagField c tag) dictionary

/-- Modelled from the spec: `AddAPETagToDictionary` is not among the sources.
The APE tag supplies its well-known fields, each through
`AddStringToCFDictionary`. -/
def AddAPETagToDictionary (c : Constants) (dictionary : CFDictionary) (tag : Tag) :
    CFDictionary :=
  WellKnownField.all.foldl (addTagField c tag) dictionary

/-! ## MusepackMetadata: static methods -/

/-- `MusepackMetadata::CreateSupportedFileExtensions` (lines 43-47). -/
def CreateSupportedFileExtensions : List CFString := [CFSTR "mpc"]

/-- `MusepackMetadata::CreateSupportedMIMETypes` (lines 49-53). -/
def CreateSupportedMIMETypes : List CFString := [CFSTR "audio/musepack"]

/-- `MusepackMetadata::HandlesFilesWithExtension` (lines 55-64). -/
def HandlesFilesWithExtension (extension : CFStringRef) : Bool :=
  match extension with
  | none => false
  | some extension =>
    if CFStringCompare extension (CFSTR "mpc") kCFCompareCaseInsensitive
        = CFComparisonResult.kCFCompareEqualTo then true
    else false

/-- `MusepackMetadata::HandlesMIMEType` (lines 66-75). -/
def HandlesMIMEType (mimeType : CFStringRef) : Bool :=
  match mimeType with
  | none => false
  | some mimeType =>
    if CFStringCompare mimeType (CFSTR "audio/musepack") kCFCompareCaseInsensitive
        = CFComparisonResult.kCFCompareEqualTo then true
    else false

/-! ## MusepackMetadata: functionality -/

/-- What a call of `ReadMetadata` leaves: the returned flag, the error
argument and the object. -/
structure ReadResult where
  returned : Bool
  error : CFErrorOut
  self : AudioMetadata
  deriving DecidableEq, Repr

/-- `MusepackMetadata::ReadMetadata` (lines 88-129). -/
def ReadMetadata (c : Constants) (env : Env) (disk : Disk) (self : AudioMetadata)
    (error : CFErrorOut) : ReadResult :=
  -- Start from scratch
  let self := { self with mMetadata := CFDictionaryRemoveAllValues self.mMetadata }
  let self := { self with mChangedMetadata := CFDictionaryRemoveAllValues self.mChangedMetadata }
  match env.CFURLGetFileSystemRepresentation self.mURL with
  | none => { returned := false, error := error, self := self }
  | some buf =>
    let stream : FileStream := { fileName := buf, openReadOnly := true }
    let file := env.MPCFile_new disk stream true
    if !file.isValid then
      let error : CFErrorOut :=
        match error with
        | none => none
        | some _ =>
          let description :=
            env.CFCopyLocalizedString (CFSTR "The file “%@” is not a valid Musepack file.")
          let failureReason := env.CFCopyLocalizedString (CFSTR "Not a Musepack file")
          let recoverySuggestion :=
            env.CFCopyLocalizedString (CFSTR "The file's extension may not match the file's type.")
          some (some (CreateErrorForURL c.AudioMetadataErrorDomain
            c.AudioMetadataInputOutputError description self.mURL failureReason
            recoverySuggestion))
      { returned := false, error := error, self := self }
    else
      let mMetadata :=
        CFDictionarySetValue self.mMetadata c.kPropertiesFormatNameKey
          (CFType.string (CFSTR "Musepack"))
      let mMetadata :=
        match file.audioProperties with
        | some properties => AddAudioPropertiesToDictionary c mMetadata properties
        | none => mMetadata
      let mMetadata :=
        match file.ID3v1Tag with
        | some tag => AddID3v1TagToDictionary c mMetadata tag
        | none => mMetadata
      let mMetadata :=
        match file.APETag with
        | some tag => AddAPETagToDictionary c mMetadata tag
        | none => mMetadata
      { returned := true, error := error, self := { self with mMetadata := mMetadata } }

/-- What a call of `WriteMetadata` leaves: the returned flag, the error
argument, the object, the disk, the calls made in order, and the stream the
call opened (line 137), if it came that far. -/
structure WriteResult where
  returned : Bool
  error : CFErrorOut
  self : AudioMetadata
  disk : Disk
  calls : List Call
  stream : Option FileStream

/-- `MusepackMetadata::WriteMetadata` (lines 131-179). The stream is opened
for writing on the path of the object's URL, and `save` works on that stream:
the bytes it leaves are the new content of that path. -/
def WriteMetadata (c : Constants) (env : Env) (disk : Disk) (self : AudioMetadata)
    (error : CFErrorOut) : WriteResult :=
  match env.CFURLGetFileSystemRepresentation self.mURL with
  | none =>
    { returned := false, error := error, self := self, disk := disk, calls := [],
      stream := none }
  | some buf =>
    let stream : FileStream := { fileName := buf, openReadOnly := false }
    let file := env.MPCFile_new disk stream false
    if !file.isValid then
      let error : CFErrorOut :=
        match error with
        | none => none
        | some _ =>
          let description :=
            env.CFCopyLocalizedString (CFSTR "The file “%@” is not a valid Musepack file.")
          let failureReason := env.CFCopyLocalizedString (CFSTR "Not a Musepack file")
          let recoverySuggestion :=
            env.CFCopyLocalizedString (CFSTR "The file's extension may not match the file's type.")
          some (some (CreateErrorForURL c.AudioMetadataErrorDomain
            c.AudioMetadataInputOutputError description self.mURL failureReason
            recoverySuggestion))
      { returned := false, error := error, self := self, disk := disk, calls := [],
        stream := some stream }
    else
      -- Although both ID3v1 and APE tags are read, only APE tags are written
      let setTag : MPCFile × List Call :=
        match file.APETag with
        | some tag =>
          ({ file with APETag := some (env.SetAPETagFromMetadata self tag) },
            [Call.SetAPETagFromMetadata tag])
        | none => (file, [])
      let file := setTag.1
      let calls := setTag.2
      let saved := env.save disk stream file
      let disk := Function.update disk buf saved.2
      let calls := calls ++ [Call.save file]
      if !saved.1 then
        let error : CFErrorOut :=
          match error with
          | none => none
          | some _ =>
            let description :=
              env.CFCopyLocalizedString (CFSTR "The file “%@” is not a valid Musepack file.")
            let failureReason := env.CFCopyLocalizedString (CFSTR "Unable to write metadata")
            let recoverySuggestion :=
              env.CFCopyLocalizedString (CFSTR "The file's extension may not match the file's type.")
            some (some (CreateErrorForURL c.AudioMetadataErrorDomain
              c.AudioMetadataInputOutputError description self.mURL failureReason
              recoverySuggestion))
        { returned := false, error := error, self := self, disk := disk, calls := calls,
          stream := some stream }
      else
        let self := env.MergeChangedMetadataIntoMetadata self
        { returned := true, error := error, self := self, disk := disk,
          calls := calls ++ [Call.MergeChangedMetadataIntoMetadata], stream := some stream }

end SFB

namespace SFB

open TagLib

/-! ## Reading the results -/

/-- The text of a `TagLib::String` before its first NUL character. -/
def textBeforeNUL (value : TagLibString) : TagLibString :=
  String.mk (value.data.takeWhile (fun c => c != NUL))

/-- The CFString that `AddStringToCFDictionary` builds from a `TagLib::String`
(line 65): the text before the first NUL character. -/
def storedText (value : TagLibString) : CFString := CFSTR (textBeforeNUL value)

/-- The text `StringFromCFString` carries over from a CFString: the
characters converted, up to the first NUL character. -/
def carriedText (s : CFString) : TagLibString :=
  String.mk ((convertiblePrefix s).takeWhile (fun c => c != NUL))

/-- The file object as `WriteMetadata` hands it to `save` (lines 157-158): the
APE tag, when there is one, has gone through the setter. -/
def fileAtSave (env : Env) (self : AudioMetadata) (file : MPCFile) : MPCFile :=
  match file.APETag with
  | some tag => { file with APETag := some (env.SetAPETagFromMetadata self tag) }
  | none => file

/-- The setter calls `WriteMetadata` makes before `save` (lines 157-158). -/
def callsBeforeSave (file : MPCFile) : List Call :=
  match file.APETag with
  | some tag => [Call.SetAPETagFromMetadata tag]
  | none => []

/-- The error `ReadMetadata` and `WriteMetadata` build with the given failure
reason (lines 103-107, 142-146, 162-166), stored when the error argument is
not null. -/
def reportError (c : Constants) (env : Env) (self : AudioMetadata) (failureReason : CFString)
    (error : CFErrorOut) : CFErrorOut :=
  match error with
  | none => none
  | some _ =>
    some (some (CreateErrorForURL c.AudioMetadataErrorDomain c.AudioMetadataInputOutputError
      (env.CFCopyLocalizedString (CFSTR "The file “%@” is not a valid Musepack file.")) self.mURL
      (env.CFCopyLocalizedString failureReason)
      (env.CFCopyLocalizedString (CFSTR "The file's extension may not match the file's type."))))

/-- The code of the error a call has reported, if it has reported one. -/
def reportedCode (error : CFErrorOut) : Option Int :=
  match error with
  | some (some e) => some e.code
  | _ => none

/-- The failure reason of the error a call has reported, if it has reported one. -/
def reportedFailureReason (error : CFErrorOut) : Option CFString :=
  match error with
  | some (some e) => some e.failureReason
  | _ => none

/-! ## A concrete setting, for evaluation -/

/-- Concrete values for the constants. -/
def exampleConstants : Constants where
  kPropertiesFormatNameKey := CFSTR "Format Name"
  propertyKey := fun p =>
    match p with
    | .sampleRate => CFSTR "Sample Rate"
    | .duration => CFSTR "Duration"
    | .bitRate => CFSTR "Bitrate"
    | .channelCount => CFSTR "Channels Per Frame"
  fieldKey := fun f =>
    match f with
    | .title => CFSTR "Title"
    | .artist => CFSTR "Artist"
    | .album => CFSTR "Album Title"
    | .year => CFSTR "Release Date"
    | .trackNumber => CFSTR "Track Number"
    | .genre => CFSTR "Genre"
    | .comment => CFSTR "Comment"
  AudioMetadataErrorDomain := CFSTR "org.sbooth.AudioEngine.ErrorDomain.AudioMetadata"
  AudioMetadataInputOutputError := 2

/-- A concrete environment. File URLs of the form `file://path` have a
file-system representation; TagLib finds `file` in every existing file (with
audio properties only when asked to read them); `save` leaves `saveResult`;
the setter writes the pending artist into the tag; the merge stores every
pending entry and empties the pending dictionary. -/
def exampleEnv (file : MPCFile) (saveResult : Bool × Option FileBytes) : Env where
  CFURLGetFileSystemRepresentation := fun url =>
    match url.data with
    | 'f' :: 'i' :: 'l' :: 'e' :: ':' :: '/' :: '/' :: path => some (String.mk path)
    | _ => none
  CFCopyLocalizedString := fun key => key
  MPCFile_new := fun disk stream readProperties =>
    match disk stream.fileName with
    | none => { isValid := false, audioProperties := none, ID3v1Tag := none, APETag := none }
    | some _ => if readProperties then file else { file with audioProperties := none }
  save := fun _ _ _ => saveResult
  SetAPETagFromMetadata := fun metadata tag =>
    match CFDictionaryGetValue metadata.mChangedMetadata (CFSTR "Artist") with
    | some (CFType.string artist) => { tag with artist := carriedText artist }
    | _ => tag
  MergeChangedMetadataIntoMetadata := fun metadata =>
    { metadata with
      mMetadata :=
        metadata.mChangedMetadata.foldl (fun d kv => CFDictionarySetValue d kv.1 kv.2)
          metadata.mMetadata
      mChangedMetadata := [] }

/-- The concrete environment on a medium that cannot be written: `save`
reports failure at its read-only check, before it writes anything. -/
def readOnlyEnv (file : MPCFile) : Env :=
  { exampleEnv file (false, none) with
    save := fun disk stream _ => (false, disk stream.fileName) }

/-- A `save` that reports failure has written nothing: the bytes it leaves
are the bytes that were there. -/
def SaveFailsBeforeWriting (env : Env) : Prop :=
  ∀ (disk : Disk) (stream : FileStream) (file : MPCFile),
    (env.save disk stream file).1 = false → (env.save disk stream file).2 = disk stream.fileName

/-- A disk with one file, `/music/song.mpc`. -/
def exampleDisk : Disk := fun path => if path = "/music/song.mpc" then some [77, 80, 43] else none

/-- A tag with an artist and nothing else. -/
def tagWithArtist (artist : TagLibString) : Tag :=
  { title := "", artist := artist, album := "", year := "", trackNumber := "", genre := "",
    comment := "" }

/-- A valid file with the given tags and some audio properties. -/
def exampleFile (id3v1 ape : Option Tag) : MPCFile :=
  { isValid := true
    audioProperties := some { sampleRate := 44100, duration := 180, bitRate := 192, channelCount := 2 }
    ID3v1Tag := id3v1
    APETag := ape }

/-- What TagLib makes of a file that is not a Musepack file. -/
def invalidFile : MPCFile :=
  { isValid := false, audioProperties := none, ID3v1Tag := none, APETag := none }

/-- A metadata object for `/music/song.mpc` with a pending change of artist. -/
def exampleObject : AudioMetadata :=
  { mURL := "file:///music/song.mpc"
    mMetadata := [(CFSTR "Artist", CFType.string (CFSTR "X"))]
    mChangedMetadata := [(CFSTR "Artist", CFType.string (CFSTR "Z"))] }

/-- A metadata object whose URL is not a file URL. -/
def remoteObject : AudioMetadata :=
  { mURL := "http://example.com/song.mpc"
    mMetadata := [(CFSTR "Artist", CFType.string (CFSTR "X"))]
    mChangedMetadata := [(CFSTR "Artist", CFType.string (CFSTR "Z"))] }

end SFB

namespace SFB

open TagLib

/-! ## Dictionaries -/

theorem get_set_same (d : CFDictionary) (k : CFString) (v : CFType) :
    CFDictionaryGetValue (CFDictionarySetValue d k v) k = some v := by
  induction d with
  | nil => simp [CFDictionarySetValue, CFDictionaryGetValue]
  | cons e rest ih =>
    obtain ⟨k0, v0⟩ := e
    by_cases h : k0 = k
    · simp [CFDictionarySetValue, CFDictionaryGetValue, h]
    · simp [CFDictionarySetValue, CFDictionaryGetValue, h, ih]

theorem get_set_other (d : CFDictionary) (k k1 : CFString) (v : CFType) (h : k ≠ k1) :
    CFDictionaryGetValue (CFDictionarySetValue d k v) k1 = CFDictionaryGetValue d k1 := by
  induction d with
  | nil => simp [CFDictionarySetValue, CFDictionaryGetValue, h]
  | cons e rest ih =>
    obtain ⟨k0, v0⟩ := e
    by_cases h0 : k0 = k
    · subst h0
      simp [CFDictionarySetValue, CFDictionaryGetValue, h]
    · by_cases h1 : k0 = k1
      · subst h1
        simp [CFDictionarySetValue, CFDictionaryGetValue, h0]
      · simp [CFDictionarySetValue, CFDictionaryGetValue, h0, h1, ih]

/-! ## Text encodings -/

theorem char_range (c : Char) : c.toNat < 0xD800 ∨ (0xDFFF < c.toNat ∧ c.toNat < 0x110000) :=
  c.valid


theorem toNat_ne_zero_of_ne_NUL (c : Char) (h : c ≠ NUL) : c.toNat ≠ 0 := by
  intro h0
  apply h
  rw [← Char.ofNat_toNat c, h0]
  rfl

theorem convertiblePrefix_cons (u : UniChar) (rest : CFString) :
    convertiblePrefix (u :: rest)
      = if u < 0xD800 then Char.ofNat u :: convertiblePrefix rest
        else if u < 0xDC00 then
          match rest with
          | l :: rest1 =>
            if 0xDC00 ≤ l ∧ l < 0xE000 then
              Char.ofNat (0x10000 + (u - 0xD800) * 0x400 + (l - 0xDC00))
                :: convertiblePrefix rest1
            else []
          | [] => []
        else if u < 0xE000 then []
        else if u < 0x10000 then Char.ofNat u :: convertiblePrefix rest
        else [] := by
  rcases rest with _ | ⟨l, rest1⟩ <;> rfl

theorem utf8Decode_cons (b0 : Nat) (rest : List Nat) :
    utf8Decode (b0 :: rest)
      = if b0 < 0x80 then
          (Char.ofNat b0 :: (utf8Decode rest).1, (utf8Decode rest).2)
        else if b0 < 0xC2 then ([], false)
        else if b0 < 0xE0 then
          match rest with
          | b1 :: rest1 =>
            if isContinuationByte b1 then
              (Char.ofNat ((b0 - 0xC0) * 0x40 + (b1 - 0x80)) :: (utf8Decode rest1).1,
                (utf8Decode rest1).2)
            else ([], false)
          | [] => ([], false)
        else if b0 < 0xF0 then
          match rest with
          | b1 :: b2 :: rest2 =>
            if isContinuationByte b1 ∧ isContinuationByte b2
                ∧ 0x800 ≤ (b0 - 0xE0) * 0x1000 + (b1 - 0x80) * 0x40 + (b2 - 0x80)
                ∧ ¬ (0xD800 ≤ (b0 - 0xE0) * 0x1000 + (b1 - 0x80) * 0x40 + (b2 - 0x80)
                  ∧ (b0 - 0xE0) * 0x1000 + (b1 - 0x80) * 0x40 + (b2 - 0x80) < 0xE000) then
              (Char.ofNat ((b0 - 0xE0) * 0x1000 + (b1 - 0x80) * 0x40 + (b2 - 0x80))
                  :: (utf8Decode rest2).1,
                (utf8Decode rest2).2)
            else ([], false)
          | _ => ([], false)
        else if b0 < 0xF5 then
          match rest with
          | b1 :: b2 :: b3 :: rest3 =>
            if isContinuationByte b1 ∧ isContinuationByte b2 ∧ isContinuationByte b3
                ∧ 0x10000 ≤ (b0 - 0xF0) * 0x40000 + (b1 - 0x80) * 0x1000 + (b2 - 0x80) * 0x40
                    + (b3 - 0x80)
                ∧ (b0 - 0xF0) * 0x40000 + (b1 - 0x80) * 0x1000 + (b2 - 0x80) * 0x40 + (b3 - 0x80)
                    < 0x110000 then
              (Char.ofNat ((b0 - 0xF0) * 0x40000 + (b1 - 0x80) * 0x1000 + (b2 - 0x80) * 0x40
                    + (b3 - 0x80)) :: (utf8Decode rest3).1,
                (utf8Decode rest3).2)
            else ([], false)
          | _ => ([], false)
        else ([], false) := by
  rcases rest with _ | ⟨b1, _ | ⟨b2, _ | ⟨b3, rest3⟩⟩⟩ <;> rfl

theorem convertiblePrefix_utf16EncodeChar_append (c : Char) (rest : CFString) :
    convertiblePrefix (utf16EncodeChar c ++ rest) = c :: convertiblePrefix rest := by
  have hr := char_range c
  have hc := Char.ofNat_toNat c
  unfold utf16EncodeChar
  by_cases h : c.toNat < 0x10000
  · rw [if_pos h]
    show convertiblePrefix (c.toNat :: rest) = _
    rw [convertiblePrefix_cons]
    by_cases h1 : c.toNat < 0xD800
    · rw [if_pos h1, hc]
    · have h2 : ¬ c.toNat < 0xDC00 := by omega
      have h3 : ¬ c.toNat < 0xE000 := by omega
      rw [if_neg h1, if_neg h2, if_neg h3, if_pos h, hc]
  · rw [if_neg h]
    have h1 : ¬ 0xD800 + (c.toNat - 0x10000) / 0x400 < 0xD800 := by omega
    have h2 : 0xD800 + (c.toNat - 0x10000) / 0x400 < 0xDC00 := by omega
    have h3 : 0xDC00 ≤ 0xDC00 + (c.toNat - 0x10000) % 0x400
        ∧ 0xDC00 + (c.toNat - 0x10000) % 0x400 < 0xE000 := by omega
    have h4 : 0x10000 + (0xD800 + (c.toNat - 0x10000) / 0x400 - 0xD800) * 0x400
        + (0xDC00 + (c.toNat - 0x10000) % 0x400 - 0xDC00) = c.toNat := by omega
    show convertiblePrefix ((0xD800 + (c.toNat - 0x10000) / 0x400)
      :: (0xDC00 + (c.toNat - 0x10000) % 0x400) :: rest) = _
    rw [convertiblePrefix_cons, if_neg h1, if_pos h2]
    simp only [if_pos h3, h4, hc]

theorem convertiblePrefix_utf16Encode (cs : List Char) :
    convertiblePrefix (utf16Encode cs) = cs := by
  induction cs with
  | nil => rfl
  | cons c cs ih => rw [utf16Encode, convertiblePrefix_utf16EncodeChar_append, ih]

theorem utf8Decode_utf8EncodeChar_append (c : Char) (rest : List Nat) :
    utf8Decode (utf8EncodeChar c ++ rest) = (c :: (utf8Decode rest).1, (utf8Decode rest).2) := by
  have hr := char_range c
  have hc := Char.ofNat_toNat c
  unfold utf8EncodeChar
  by_cases h1 : c.toNat < 0x80
  · rw [if_pos h1]
    show utf8Decode (c.toNat :: rest) = _
    rw [utf8Decode_cons, if_pos h1, hc]
  · rw [if_neg h1]
    by_cases h2 : c.toNat < 0x800
    · rw [if_pos h2]
      have a1 : ¬ 0xC0 + c.toNat / 0x40 < 0x80 := by omega
      have a2 : ¬ 0xC0 + c.toNat / 0x40 < 0xC2 := by omega
      have a3 : 0xC0 + c.toNat / 0x40 < 0xE0 := by omega
      have a4 : isContinuationByte (0x80 + c.toNat % 0x40) = true := by
        simp only [isContinuationByte, decide_eq_true_eq]; omega
      have a5 : (0xC0 + c.toNat / 0x40 - 0xC0) * 0x40 + (0x80 + c.toNat % 0x40 - 0x80)
          = c.toNat := by omega
      show utf8Decode ((0xC0 + c.toNat / 0x40) :: (0x80 + c.toNat % 0x40) :: rest) = _
      rw [utf8Decode_cons, if_neg a1, if_neg a2, if_pos a3]
      simp only [a4, if_true, a5, hc]
    · rw [if_neg h2]
      by_cases h3 : c.toNat < 0x10000
      · rw [if_pos h3]
        have a1 : ¬ 0xE0 + c.toNat / 0x1000 < 0x80 := by omega
        have a2 : ¬ 0xE0 + c.toNat / 0x1000 < 0xC2 := by omega
        have a3 : ¬ 0xE0 + c.toNat / 0x1000 < 0xE0 := by omega
        have a4 : 0xE0 + c.toNat / 0x1000 < 0xF0 := by omega
        have a5 : isContinuationByte (0x80 + c.toNat / 0x40 % 0x40) = true := by
          simp only [isContinuationByte, decide_eq_true_eq]; omega
        have a6 : isContinuationByte (0x80 + c.toNat % 0x40) = true := by
          simp only [isContinuationByte, decide_eq_true_eq]; omega
        have a7 : (0xE0 + c.toNat / 0x1000 - 0xE0) * 0x1000
            + (0x80 + c.toNat / 0x40 % 0x40 - 0x80) * 0x40 + (0x80 + c.toNat % 0x40 - 0x80)
            = c.toNat := by omega
        have a8 : 0x800 ≤ c.toNat := by omega
        have a9 : ¬ (0xD800 ≤ c.toNat ∧ c.toNat < 0xE000) := by omega
        show utf8Decode ((0xE0 + c.toNat / 0x1000) :: (0x80 + c.toNat / 0x40 % 0x40)
          :: (0x80 + c.toNat % 0x40) :: rest) = _
        rw [utf8Decode_cons, if_neg a1, if_neg a2, if_neg a3, if_pos a4]
        simp only [a5, a6, a7, a8, a9, not_false_eq_true, and_self, if_true, hc]
      · rw [if_neg h3]
        have a1 : ¬ 0xF0 + c.toNat / 0x40000 < 0x80 := by omega
        have a2 : ¬ 0xF0 + c.toNat / 0x40000 < 0xC2 := by omega
        have a3 : ¬ 0xF0 + c.toNat / 0x40000 < 0xE0 := by omega
        have a4 : ¬ 0xF0 + c.toNat / 0x40000 < 0xF0 := by omega
        have a4b : 0xF0 + c.toNat / 0x40000 < 0xF5 := by omega
        have a5 : isContinuationByte (0x80 + c.toNat / 0x1000 % 0x40) = true := by
          simp only [isContinuationByte, decide_eq_true_eq]; omega
        have a5b : isContinuationByte (0x80 + c.toNat / 0x40 % 0x40) = true := by
          simp only [isContinuationByte, decide_eq_true_eq]; omega
        have a6 : isContinuationByte (0x80 + c.toNat % 0x40) = true := by
          simp only [isContinuationByte, decide_eq_true_eq]; omega
        have a7 : (0xF0 + c.toNat / 0x40000 - 0xF0) * 0x40000
            + (0x80 + c.toNat / 0x1000 % 0x40 - 0x80) * 0x1000
            + (0x80 + c.toNat / 0x40 % 0x40 - 0x80) * 0x40 + (0x80 + c.toNat % 0x40 - 0x80)
            = c.toNat := by omega
        have a8 : 0x10000 ≤ c.toNat := by omega
        have a9 : c.toNat < 0x110000 := by omega
        show utf8Decode ((0xF0 + c.toNat / 0x40000) :: (0x80 + c.toNat / 0x1000 % 0x40)
          :: (0x80 + c.toNat / 0x40 % 0x40) :: (0x80 + c.toNat % 0x40) :: rest) = _
        rw [utf8Decode_cons, if_neg a1, if_neg a2, if_neg a3, if_neg a4, if_pos a4b]
        simp only [a5, a5b, a6, a7, a8, a9, and_self, if_true, hc]

theorem utf8Decode_utf8Encode (cs : List Char) : utf8Decode (utf8Encode cs) = (cs, true) := by
  induction cs with
  | nil => rfl
  | cons c cs ih => rw [utf8Encode, utf8Decode_utf8EncodeChar_append, ih]

theorem utf8EncodeChar_NUL : utf8EncodeChar NUL = [0] := by decide

theorem utf8EncodeChar_ne_zero (c : Char) (h : c ≠ NUL) : ∀ b ∈ utf8EncodeChar c, b ≠ 0 := by
  have h0 := toNat_ne_zero_of_ne_NUL c h
  intro b hb
  unfold utf8EncodeChar at hb
  split at hb
  · simp at hb; omega
  · split at hb
    · simp at hb; omega
    · split at hb
      · simp at hb; omega
      · simp at hb; omega


/-! ## C strings -/

theorem readCString_cons_zero (l : List Nat) : readCString (0 :: l) = [] := by
  simp [readCString, List.takeWhile_cons]

theorem readCString_append_of_ne_zero (l tail : List Nat) (h : ∀ b ∈ l, b ≠ 0) :
    readCString (l ++ tail) = l ++ readCString tail := by
  induction l with
  | nil => rfl
  | cons a l ih =>
    have ha : a ≠ 0 := h a (List.mem_cons_self _ _)
    have hl : ∀ b ∈ l, b ≠ 0 := fun b hb => h b (List.mem_cons_of_mem _ hb)
    have e := ih hl
    unfold readCString at e ⊢
    simp [List.takeWhile_cons, ha, e]

theorem readCString_utf8Encode_append (text : List Char) (tail : List Nat) :
    readCString (utf8Encode text ++ 0 :: tail)
      = utf8Encode (text.takeWhile (fun c => c != NUL)) := by
  induction text with
  | nil => simp [utf8Encode, readCString_cons_zero]
  | cons c cs ih =>
    by_cases h : c = NUL
    · subst h
      simp [utf8Encode, utf8EncodeChar_NUL, readCString_cons_zero, List.takeWhile_cons]
    · rw [utf8Encode, List.append_assoc,
        readCString_append_of_ne_zero _ _ (utf8EncodeChar_ne_zero c h), ih]
      simp [List.takeWhile_cons, h, utf8Encode]

theorem readCString_utf8Encode (text : List Char) :
    readCString (utf8Encode text) = utf8Encode (text.takeWhile (fun c => c != NUL)) := by
  induction text with
  | nil => simp [utf8Encode, readCString]
  | cons c cs ih =>
    by_cases h : c = NUL
    · subst h
      simp [utf8Encode, utf8EncodeChar_NUL, readCString_cons_zero, List.takeWhile_cons]
    · rw [utf8Encode, readCString_append_of_ne_zero _ _ (utf8EncodeChar_ne_zero c h), ih]
      simp [List.takeWhile_cons, h, utf8Encode]

theorem takeWhile_ne_NUL_of_not_mem (text : List Char) (h : NUL ∉ text) :
    text.takeWhile (fun c => c != NUL) = text := by
  induction text with
  | nil => rfl
  | cons a l ih =>
    have ha : a ≠ NUL := fun e => h (by simp [e])
    have hl : NUL ∉ l := fun e => h (by simp [e])
    simp [List.takeWhile_cons, ha, ih hl]

theorem takeWhile_ne_NUL_idem (text : List Char) :
    (text.takeWhile (fun c => c != NUL)).takeWhile (fun c => c != NUL)
      = text.takeWhile (fun c => c != NUL) := by
  induction text with
  | nil => rfl
  | cons a l ih =>
    by_cases h : a = NUL
    · simp [List.takeWhile_cons, h]
    · simp [List.takeWhile_cons, h, ih]

theorem zero_mem_utf16Encode (text : List Char) (h : NUL ∈ text) : 0 ∈ utf16Encode text := by
  induction text with
  | nil => exact absurd h (List.not_mem_nil _)
  | cons c cs ih =>
    rw [utf16Encode, List.mem_append]
    rcases List.mem_cons.mp h with h | h
    · left
      rw [← h]
      decide
    · exact Or.inr (ih h)

theorem loadCString_terminated (bytes : List Nat) (tail : List (Option Nat)) :
    loadCString (bytes.map some ++ some 0 :: tail) = some (readCString bytes) := by
  induction bytes with
  | nil => simp [loadCString, readCString]
  | cons b bs ih =>
    by_cases h : b = 0
    · subst h
      simp [loadCString, readCString_cons_zero]
    · simp [loadCString, h, ih, readCString, List.takeWhile_cons]

/-! ## The two directions of the bridge -/

theorem fittingPrefix_self (text : List Char) :
    fittingPrefix (utf8Encode text).length text = text := by
  induction text with
  | nil => rfl
  | cons c cs ih =>
    have e : (utf8Encode (c :: cs)).length
        = (utf8EncodeChar c).length + (utf8Encode cs).length := by
      rw [utf8Encode, List.length_append]
    rw [e, fittingPrefix, if_pos (Nat.le_add_right _ _), Nat.add_sub_cancel_left, ih]

/-- Without bounds checks, `StringFromCFString` returns the text converted
from the string, up to its first NUL character. -/
theorem StringFromCFString_unchecked (s : CFString) :
    StringFromCFString false (some s) = some (carriedText s) := by
  have hlen : ∀ n : Nat, (List.replicate (n + 1) (none : Option Nat)).length = n + 1 :=
    fun n => List.length_replicate _ _
  have hstore1 : storeBytes (List.replicate ((utf8Encode (convertiblePrefix s)).length + 1) none)
      0 (utf8Encode (convertiblePrefix s))
      = some ((utf8Encode (convertiblePrefix s)).map some ++ [none]) := by
    unfold storeBytes
    rw [if_pos (by rw [hlen]; omega)]
    simp [List.drop_replicate]
  have hstore2 : storeBytes ((utf8Encode (convertiblePrefix s)).map some ++ [none])
      (utf8Encode (convertiblePrefix s)).length [0]
      = some ((utf8Encode (convertiblePrefix s)).map some ++ [some 0]) := by
    unfold storeBytes
    rw [if_pos (by simp)]
    have e1 : List.take (utf8Encode (convertiblePrefix s)).length
        ((utf8Encode (convertiblePrefix s)).map some ++ [none])
        = (utf8Encode (convertiblePrefix s)).map some := by
      rw [List.take_append_of_le_length (by simp)]
      exact List.take_of_length_le (by simp)
    have e2 : List.drop ((utf8Encode (convertiblePrefix s)).length + [0].length)
        ((utf8Encode (convertiblePrefix s)).map some ++ [none]) = [] :=
      List.drop_of_length_le (by simp)
    rw [e1, e2]
    simp
  simp only [StringFromCFString, CFStringGetBytes, CharVector.new, CharVector.reserve,
    CharVector.element, fittingPrefix_self, if_true, Bool.false_eq_true, false_and, if_false,
    List.length_nil, List.nil_append, Nat.sub_zero, Nat.zero_lt_succ, hstore1, hlen,
    List.length_append, List.length_map, List.length_singleton, Nat.lt_succ_self, hstore2,
    List.drop_zero, loadCString_terminated, Option.map_some', readCString_utf8Encode,
    TagLibStringOfCString, utf8Decode_utf8Encode, carriedText]

/-- With bounds checks, `StringFromCFString` does not return a string for any
non-null argument: the first `buf[0]` is already outside the vector's size. -/
theorem StringFromCFString_checked (s : CFString) : StringFromCFString true (some s) = none := by
  simp [StringFromCFString, CharVector.element, CharVector.reserve, CharVector.new]

theorem CFStringCreateWithCString_toCString (value : TagLibString) :
    CFStringCreateWithCString (toCString value) = some (storedText value) := by
  simp [CFStringCreateWithCString, toCString, readCString_utf8Encode_append,
    utf8Decode_utf8Encode, storedText, textBeforeNUL, CFSTR]

/-- What `AddStringToCFDictionary` does on a non-null dictionary and key. -/
theorem AddStringToCFDictionary_some (d : CFDictionary) (k : CFString) (value : TagLibString) :
    AddStringToCFDictionary (some d) (some k) value
      = if value = "" then some d
        else some (CFDictionarySetValue d k (CFType.string (storedText value))) := by
  simp [AddStringToCFDictionary, CFStringCreateWithCString_toCString]

theorem storedText_carriedText (s : CFString) : storedText (carriedText s) = CFSTR (carriedText s) := by
  simp [storedText, textBeforeNUL, carriedText, takeWhile_ne_NUL_idem]

end SFB

namespace SFB

open TagLib

/-! ## The string bridge -/

/-- C9, as the code has it, where the writes of `StringFromCFString` into the
storage its vector has reserved take effect (a standard library without
bounds checks). For every non-null CFString `s` that is non-empty, holds no
NUL character and no unpaired surrogate, every dictionary `d` and key `k`,
`StringFromCFString(s)` returns a string, and after
`AddStringToCFDictionary(d, k, StringFromCFString(s))` the value under `k` is
`s` and every other key is as before. For any non-null `s`, the string
returned is the text converted from `s` up to its first NUL character; that
text is what ends up under `k` when it is non-empty, and `d` is unchanged
when it is empty. `StringFromCFString(null)` is the empty string, for which
`AddStringToCFDictionary` leaves the dictionary unchanged. -/
theorem string_bridge_round_trip :
    (∀ (s : CFString) (d : CFDictionary) (k : CFString),
      HasNoUnpairedSurrogate s → 0 ∉ s → s ≠ [] →
      ∃ value d1, StringFromCFString false (some s) = some value ∧
        AddStringToCFDictionary (some d) (some k) value = some d1 ∧
        CFDictionaryGetValue d1 k = some (CFType.string s) ∧
        ∀ k1, k1 ≠ k → CFDictionaryGetValue d1 k1 = CFDictionaryGetValue d k1) ∧
    (∀ (s : CFString) (d : CFDictionary) (k : CFString),
      ∃ d1, StringFromCFString false (some s) = some (carriedText s) ∧
        AddStringToCFDictionary (some d) (some k) (carriedText s) = some d1 ∧
        (carriedText s = "" → d1 = d) ∧
        (carriedText s ≠ "" →
          CFDictionaryGetValue d1 k = some (CFType.string (CFSTR (carriedText s))) ∧
          ∀ k1, k1 ≠ k → CFDictionaryGetValue d1 k1 = CFDictionaryGetValue d k1)) ∧
    (∀ boundsChecked, StringFromCFString boundsChecked none = some "") ∧
    (∀ (d : Option CFDictionary) (k : CFStringRef), AddStringToCFDictionary d k "" = d) := by
  have general : ∀ (s : CFString) (d : CFDictionary) (k : CFString),
      ∃ d1, StringFromCFString false (some s) = some (carriedText s) ∧
        AddStringToCFDictionary (some d) (some k) (carriedText s) = some d1 ∧
        (carriedText s = "" → d1 = d) ∧
        (carriedText s ≠ "" →
          CFDictionaryGetValue d1 k = some (CFType.string (CFSTR (carriedText s))) ∧
          ∀ k1, k1 ≠ k → CFDictionaryGetValue d1 k1 = CFDictionaryGetValue d k1) := by
    intro s d k
    rw [AddStringToCFDictionary_some]
    by_cases h : carriedText s = ""
    · exact ⟨d, StringFromCFString_unchecked s, by simp [h], fun _ => rfl, fun h1 => absurd h h1⟩
    · refine ⟨_, StringFromCFString_unchecked s, if_neg h, fun h1 => absurd h1 h,
        fun _ => ⟨?_, ?_⟩⟩
      · rw [storedText_carriedText]
        exact get_set_same _ _ _
      · intro k1 hk
        exact get_set_other _ _ _ _ (Ne.symm hk)
  refine ⟨?_, general, fun _ => rfl, ?_⟩
  · intro s d k hwf hnul hne
    have hN : NUL ∉ convertiblePrefix s := by
      intro hmem
      apply hnul
      have := zero_mem_utf16Encode _ hmem
      rwa [hwf] at this
    have hc : CFSTR (carriedText s) = s := by
      unfold carriedText CFSTR
      rw [takeWhile_ne_NUL_of_not_mem _ hN]
      exact hwf
    have hne1 : carriedText s ≠ "" := by
      intro e
      apply hne
      rw [← hc, e]
      rfl
    obtain ⟨d1, h1, h2, _, h4⟩ := general s d k
    rw [hc] at h4
    exact ⟨carriedText s, d1, h1, h2, h4 hne1⟩
  · intro d k
    cases d <;> cases k <;> simp [AddStringToCFDictionary]

/-- The round trip at the string "Rush", stored under "Artist" in a dictionary
that already holds a title. -/
theorem string_bridge_round_trip_witness :
    ∃ value d1, StringFromCFString false (some (CFSTR "Rush")) = some value ∧
      AddStringToCFDictionary (some [(CFSTR "Title", CFType.string (CFSTR "2112"))])
        (some (CFSTR "Artist")) value = some d1 ∧
      CFDictionaryGetValue d1 (CFSTR "Artist") = some (CFType.string (CFSTR "Rush")) ∧
      ∀ k1, k1 ≠ CFSTR "Artist" →
        CFDictionaryGetValue d1 k1
          = CFDictionaryGetValue [(CFSTR "Title", CFType.string (CFSTR "2112"))] k1 :=
  string_bridge_round_trip.1 (CFSTR "Rush") [(CFSTR "Title", CFType.string (CFSTR "2112"))]
    (CFSTR "Artist") (by decide) (by decide) (by decide)

/-- C9 fails as stated: the non-null, non-empty CFString made of `a`, NUL, `b`
comes back from the bridge as "a", which is what ends up under the key. -/
theorem string_bridge_loses_text_after_NUL :
    ([0x61, 0, 0x62] : CFString) ≠ [] ∧
    StringFromCFString false (some [0x61, 0, 0x62]) = some "a" ∧
    AddStringToCFDictionary (some []) (some (CFSTR "Artist")) "a"
      = some [(CFSTR "Artist", CFType.string [0x61])] ∧
    CFDictionaryGetValue [(CFSTR "Artist", CFType.string [0x61])] (CFSTR "Artist")
      ≠ some (CFType.string [0x61, 0, 0x62]) := by
  decide

/-! ## File extensions and MIME types -/

/-- A case-insensitive comparison yields "equal" exactly for strings with the
same case folding. -/
theorem CFStringCompare_caseInsensitive (a b : CFString) :
    CFStringCompare a b kCFCompareCaseInsensitive = CFComparisonResult.kCFCompareEqualTo
      ↔ foldCase a = foldCase b := by
  have h1 : kCFCompareCaseInsensitive % 2 = 1 := rfl
  unfold CFStringCompare
  simp only [h1, if_true]
  by_cases h : foldCase a = foldCase b
  · simp [h]
  · simp only [h, if_false, iff_false]
    split <;> simp

/-- C10: `HandlesFilesWithExtension(e)` is true exactly when `e` is non-null
and equals, ignoring letter case, some element of
`CreateSupportedFileExtensions()`, and `HandlesMIMEType(m)` is true exactly
when `m` is non-null and equals, ignoring letter case, some element of
`CreateSupportedMIMETypes()`. -/
theorem handles_iff_supported :
    (∀ e : CFStringRef, HandlesFilesWithExtension e = true ↔
      ∃ s, e = some s ∧ ∃ x ∈ CreateSupportedFileExtensions, foldCase s = foldCase x) ∧
    (∀ m : CFStringRef, HandlesMIMEType m = true ↔
      ∃ s, m = some s ∧ ∃ x ∈ CreateSupportedMIMETypes, foldCase s = foldCase x) := by
  constructor
  · intro e
    cases e with
    | none => simp [HandlesFilesWithExtension]
    | some s =>
      simp only [HandlesFilesWithExtension, CreateSupportedFileExtensions,
        CFStringCompare_caseInsensitive, Option.some.injEq, List.mem_singleton,
        exists_eq_left, exists_eq_left']
      by_cases h : foldCase s = foldCase (CFSTR "mpc") <;> simp [h]
  · intro m
    cases m with
    | none => simp [HandlesMIMEType]
    | some s =>
      simp only [HandlesMIMEType, CreateSupportedMIMETypes,
        CFStringCompare_caseInsensitive, Option.some.injEq, List.mem_singleton,
        exists_eq_left, exists_eq_left']
      by_cases h : foldCase s = foldCase (CFSTR "audio/musepack") <;> simp [h]

end SFB

namespace SFB

open TagLib

/-! ## The tag readers -/

theorem addTagField_eq (c : Constants) (tag : Tag) (d : CFDictionary) (f : WellKnownField) :
    addTagField c tag d f
      = if tag.get f = "" then d
        else CFDictionarySetValue d (c.fieldKey f) (CFType.string (storedText (tag.get f))) := by
  unfold addTagField
  rw [AddStringToCFDictionary_some]
  by_cases h : tag.get f = ""
  · simp [h]
  · simp [h]

/-- A key that no non-empty field of the tag is stored under keeps its value. -/
theorem foldl_addTagField_untouched (c : Constants) (tag : Tag) (k : CFString)
    (fs : List WellKnownField) (d : CFDictionary)
    (h : ∀ g ∈ fs, c.fieldKey g = k → tag.get g = "") :
    CFDictionaryGetValue (fs.foldl (addTagField c tag) d) k = CFDictionaryGetValue d k := by
  induction fs generalizing d with
  | nil => rfl
  | cons g fs ih =>
    rw [List.foldl_cons, ih _ (fun x hx => h x (List.mem_cons_of_mem _ hx)), addTagField_eq]
    by_cases hg : tag.get g = ""
    · simp [hg]
    · have hk : c.fieldKey g ≠ k := fun e => hg (h g (List.mem_cons_self _ _) e)
      simp [hg, get_set_other _ _ _ _ hk]

theorem AddAudioPropertiesToDictionary_untouched (c : Constants) (d : CFDictionary)
    (properties : AudioProperties) (k : CFString) (h : ∀ p, c.propertyKey p ≠ k) :
    CFDictionaryGetValue (AddAudioPropertiesToDictionary c d properties) k
      = CFDictionaryGetValue d k := by
  simp [AddAudioPropertiesToDictionary, get_set_other _ _ _ _ (h _)]

/-! ## ReadMetadata -/

/-- `ReadMetadata` on a valid file, in one equation. -/
theorem ReadMetadata_valid (c : Constants) (env : Env) (disk : Disk) (self : AudioMetadata)
    (error : CFErrorOut) (buf : Path)
    (hpath : env.CFURLGetFileSystemRepresentation self.mURL = some buf)
    (hvalid : (env.MPCFile_new disk { fileName := buf, openReadOnly := true } true).isValid = true) :
    ReadMetadata c env disk self error
      = { returned := true
          error := error
          self :=
            { mURL := self.mURL
              mMetadata :=
                let file := env.MPCFile_new disk { fileName := buf, openReadOnly := true } true
                let m := CFDictionarySetValue [] c.kPropertiesFormatNameKey
                  (CFType.string (CFSTR "Musepack"))
                let m := match file.audioProperties with
                  | some properties => AddAudioPropertiesToDictionary c m properties
                  | none => m
                let m := match file.ID3v1Tag with
                  | some tag => AddID3v1TagToDictionary c m tag
                  | none => m
                match file.APETag with
                | some tag => AddAPETagToDictionary c m tag
                | none => m
              mChangedMetadata := [] } } := by
  simp [ReadMetadata, hpath, hvalid, CFDictionaryRemoveAllValues]

/-- `ReadMetadata` when no valid file is found. -/
theorem ReadMetadata_failed (c : Constants) (env : Env) (disk : Disk) (self : AudioMetadata)
    (error : CFErrorOut)
    (h : (ReadMetadata c env disk self error).returned = false) :
    (ReadMetadata c env disk self error).self
      = { mURL := self.mURL, mMetadata := [], mChangedMetadata := [] } := by
  unfold ReadMetadata at h ⊢
  cases hp : env.CFURLGetFileSystemRepresentation self.mURL with
  | none => simp [hp, CFDictionaryRemoveAllValues]
  | some buf =>
    simp only [hp] at h ⊢
    by_cases hv : (env.MPCFile_new disk { fileName := buf, openReadOnly := true } true).isValid = true
    · simp [hv] at h
    · simp [hv, CFDictionaryRemoveAllValues]

end SFB

namespace SFB

open TagLib

/-- C8: `ReadMetadata` starts from scratch. Whatever the object held before,
the changed-metadata dictionary is empty afterwards and the whole outcome is
the one obtained from any other prior content of the two dictionaries, so no
entry is carried over; when it returns false the metadata dictionary is empty,
and when it returns true the format-name key holds "Musepack". -/
theorem ReadMetadata_starts_from_scratch (c : Constants) (env : Env) (disk : Disk)
    (self : AudioMetadata) (error : CFErrorOut)
    (hfield : ∀ f, c.fieldKey f ≠ c.kPropertiesFormatNameKey)
    (hprop : ∀ p, c.propertyKey p ≠ c.kPropertiesFormatNameKey) :
    (ReadMetadata c env disk self error).self.mChangedMetadata = [] ∧
    (∀ m ch : CFDictionary,
      ReadMetadata c env disk { mURL := self.mURL, mMetadata := m, mChangedMetadata := ch } error
        = ReadMetadata c env disk self error) ∧
    ((ReadMetadata c env disk self error).returned = false →
      (ReadMetadata c env disk self error).self.mMetadata = []) ∧
    ((ReadMetadata c env disk self error).returned = true →
      CFDictionaryGetValue (ReadMetadata c env disk self error).self.mMetadata
          c.kPropertiesFormatNameKey
        = some (CFType.string (CFSTR "Musepack"))) := by
  refine ⟨?_, fun m ch => rfl, fun h => ?_, fun h => ?_⟩
  · cases hr : (ReadMetadata c env disk self error).returned with
    | false => rw [ReadMetadata_failed c env disk self error hr]
    | true =>
      cases hp : env.CFURLGetFileSystemRepresentation self.mURL with
      | none => simp [ReadMetadata, hp] at hr
      | some buf =>
        by_cases hv : (env.MPCFile_new disk { fileName := buf, openReadOnly := true } true).isValid
            = true
        · rw [ReadMetadata_valid c env disk self error buf hp hv]
        · simp [ReadMetadata, hp, hv] at hr
  · rw [ReadMetadata_failed c env disk self error h]
  · cases hp : env.CFURLGetFileSystemRepresentation self.mURL with
    | none => simp [ReadMetadata, hp] at h
    | some buf =>
      by_cases hv : (env.MPCFile_new disk { fileName := buf, openReadOnly := true } true).isValid
          = true
      · rw [ReadMetadata_valid c env disk self error buf hp hv]
        have keep : ∀ (tag : Tag) (d : CFDictionary),
            CFDictionaryGetValue (WellKnownField.all.foldl (addTagField c tag) d)
                c.kPropertiesFormatNameKey
              = CFDictionaryGetValue d c.kPropertiesFormatNameKey :=
          fun tag d => foldl_addTagField_untouched c tag _ _ d
            (fun g _ hg => absurd hg (hfield g))
        simp only []
        cases (env.MPCFile_new disk { fileName := buf, openReadOnly := true } true).audioProperties
          <;> cases (env.MPCFile_new disk { fileName := buf, openReadOnly := true } true).ID3v1Tag
          <;> cases (env.MPCFile_new disk { fileName := buf, openReadOnly := true } true).APETag
          <;> simp only [AddID3v1TagToDictionary, AddAPETagToDictionary, keep,
            AddAudioPropertiesToDictionary_untouched _ _ _ _ hprop, get_set_same]
      · simp [ReadMetadata, hp, hv] at h

/-- Reading `/music/song.mpc` into an object that held artist "X" and a
pending artist "Z": the format name is there afterwards. -/
theorem ReadMetadata_starts_from_scratch_witness :
    CFDictionaryGetValue
        (ReadMetadata exampleConstants
          (exampleEnv (exampleFile (some (tagWithArtist "A")) none) (true, none))
          exampleDisk exampleObject none).self.mMetadata
        (CFSTR "Format Name")
      = some (CFType.string (CFSTR "Musepack")) :=
  (ReadMetadata_starts_from_scratch exampleConstants
    (exampleEnv (exampleFile (some (tagWithArtist "A")) none) (true, none))
    exampleDisk exampleObject none
    (fun f => by cases f <;> decide) (fun p => by cases p <;> decide)).2.2.2 (by decide)

end SFB

namespace SFB

open TagLib

/-! ## WriteMetadata, path by path -/

theorem WriteMetadata_no_path (c : Constants) (env : Env) (disk : Disk) (self : AudioMetadata)
    (error : CFErrorOut) (hpath : env.CFURLGetFileSystemRepresentation self.mURL = none) :
    WriteMetadata c env disk self error
      = { returned := false, error := error, self := self, disk := disk, calls := [],
          stream := none } := by
  simp [WriteMetadata, hpath]

theorem WriteMetadata_invalid (c : Constants) (env : Env) (disk : Disk) (self : AudioMetadata)
    (error : CFErrorOut) (buf : Path)
    (hpath : env.CFURLGetFileSystemRepresentation self.mURL = some buf)
    (hvalid : (env.MPCFile_new disk { fileName := buf, openReadOnly := false } false).isValid
      = false) :
    WriteMetadata c env disk self error
      = { returned := false, error := reportError c env self (CFSTR "Not a Musepack file") error,
          self := self, disk := disk, calls := [],
          stream := some { fileName := buf, openReadOnly := false } } := by
  simp [WriteMetadata, hpath, hvalid, reportError]

theorem WriteMetadata_save_failed (c : Constants) (env : Env) (disk : Disk)
    (self : AudioMetadata) (error : CFErrorOut) (buf : Path)
    (hpath : env.CFURLGetFileSystemRepresentation self.mURL = some buf)
    (hvalid : (env.MPCFile_new disk { fileName := buf, openReadOnly := false } false).isValid
      = true)
    (hsave : (env.save disk { fileName := buf, openReadOnly := false }
      (fileAtSave env self
        (env.MPCFile_new disk { fileName := buf, openReadOnly := false } false))).1 = false) :
    WriteMetadata c env disk self error
      = { returned := false, error := reportError c env self (CFSTR "Unable to write metadata") error,
          self := self,
          disk := Function.update disk buf
            (env.save disk { fileName := buf, openReadOnly := false }
              (fileAtSave env self
                (env.MPCFile_new disk { fileName := buf, openReadOnly := false } false))).2,
          calls :=
            callsBeforeSave (env.MPCFile_new disk { fileName := buf, openReadOnly := false } false)
              ++ [Call.save (fileAtSave env self
                (env.MPCFile_new disk { fileName := buf, openReadOnly := false } false))],
          stream := some { fileName := buf, openReadOnly := false } } := by
  unfold fileAtSave at hsave
  unfold WriteMetadata fileAtSave callsBeforeSave reportError
  simp only [hpath, hvalid]
  cases hape : (env.MPCFile_new disk { fileName := buf, openReadOnly := false } false).APETag
    <;> simp only [hape, hvalid] at hsave <;> simp [hsave]

theorem WriteMetadata_saved (c : Constants) (env : Env) (disk : Disk)
    (self : AudioMetadata) (error : CFErrorOut) (buf : Path)
    (hpath : env.CFURLGetFileSystemRepresentation self.mURL = some buf)
    (hvalid : (env.MPCFile_new disk { fileName := buf, openReadOnly := false } false).isValid
      = true)
    (hsave : (env.save disk { fileName := buf, openReadOnly := false }
      (fileAtSave env self
        (env.MPCFile_new disk { fileName := buf, openReadOnly := false } false))).1 = true) :
    WriteMetadata c env disk self error
      = { returned := true, error := error,
          self := env.MergeChangedMetadataIntoMetadata self,
          disk := Function.update disk buf
            (env.save disk { fileName := buf, openReadOnly := false }
              (fileAtSave env self
                (env.MPCFile_new disk { fileName := buf, openReadOnly := false } false))).2,
          calls :=
            callsBeforeSave (env.MPCFile_new disk { fileName := buf, openReadOnly := false } false)
              ++ [Call.save (fileAtSave env self
                (env.MPCFile_new disk { fileName := buf, openReadOnly := false } false)),
                Call.MergeChangedMetadataIntoMetadata],
          stream := some { fileName := buf, openReadOnly := false } } := by
  unfold fileAtSave at hsave
  unfold WriteMetadata fileAtSave callsBeforeSave
  simp only [hpath, hvalid]
  cases hape : (env.MPCFile_new disk { fileName := buf, openReadOnly := false } false).APETag
    <;> simp only [hape, hvalid] at hsave <;> simp [hsave]

/-- The four ways a call of `WriteMetadata` can go. -/
theorem WriteMetadata_cases (c : Constants) (env : Env) (disk : Disk) (self : AudioMetadata)
    (error : CFErrorOut) :
    (env.CFURLGetFileSystemRepresentation self.mURL = none ∧
      WriteMetadata c env disk self error
        = { returned := false, error := error, self := self, disk := disk, calls := [],
            stream := none }) ∨
    (∃ buf, env.CFURLGetFileSystemRepresentation self.mURL = some buf ∧
      (env.MPCFile_new disk { fileName := buf, openReadOnly := false } false).isValid = false ∧
      WriteMetadata c env disk self error
        = { returned := false, error := reportError c env self (CFSTR "Not a Musepack file") error,
            self := self, disk := disk, calls := [],
            stream := some { fileName := buf, openReadOnly := false } }) ∨
    (∃ buf file saved, env.CFURLGetFileSystemRepresentation self.mURL = some buf ∧
      file = env.MPCFile_new disk { fileName := buf, openReadOnly := false } false ∧
      file.isValid = true ∧
      saved = env.save disk { fileName := buf, openReadOnly := false } (fileAtSave env self file) ∧
      saved.1 = false ∧
      WriteMetadata c env disk self error
        = { returned := false, error := reportError c env self (CFSTR "Unable to write metadata") error,
            self := self, disk := Function.update disk buf saved.2,
            calls := callsBeforeSave file ++ [Call.save (fileAtSave env self file)],
            stream := some { fileName := buf, openReadOnly := false } }) ∨
    (∃ buf file saved, env.CFURLGetFileSystemRepresentation self.mURL = some buf ∧
      file = env.MPCFile_new disk { fileName := buf, openReadOnly := false } false ∧
      file.isValid = true ∧
      saved = env.save disk { fileName := buf, openReadOnly := false } (fileAtSave env self file) ∧
      saved.1 = true ∧
      WriteMetadata c env disk self error
        = { returned := true, error := error,
            self := env.MergeChangedMetadataIntoMetadata self,
            disk := Function.update disk buf saved.2,
            calls := callsBeforeSave file
              ++ [Call.save (fileAtSave env self file), Call.MergeChangedMetadataIntoMetadata],
            stream := some { fileName := buf, openReadOnly := false } }) := by
  cases hpath : env.CFURLGetFileSystemRepresentation self.mURL with
  | none => exact Or.inl ⟨rfl, WriteMetadata_no_path c env disk self error hpath⟩
  | some buf =>
    cases hvalid : (env.MPCFile_new disk { fileName := buf, openReadOnly := false } false).isValid with
    | false =>
      exact Or.inr (Or.inl ⟨buf, rfl, hvalid,
        WriteMetadata_invalid c env disk self error buf hpath hvalid⟩)
    | true =>
      cases hsave : (env.save disk { fileName := buf, openReadOnly := false }
        (fileAtSave env self
          (env.MPCFile_new disk { fileName := buf, openReadOnly := false } false))).1 with
      | false =>
        exact Or.inr (Or.inr (Or.inl ⟨buf, _, _, rfl, rfl, hvalid, rfl, hsave,
          WriteMetadata_save_failed c env disk self error buf hpath hvalid hsave⟩))
      | true =>
        exact Or.inr (Or.inr (Or.inr ⟨buf, _, _, rfl, rfl, hvalid, rfl, hsave,
          WriteMetadata_saved c env disk self error buf hpath hvalid hsave⟩))

end SFB

namespace SFB

open TagLib

/-! ## WriteMetadata: what is written, and when -/

theorem merge_not_mem_callsBeforeSave (file : MPCFile) :
    Call.MergeChangedMetadataIntoMetadata ∉ callsBeforeSave file := by
  unfold callsBeforeSave
  cases file.APETag <;> simp

theorem fileAtSave_frame (env : Env) (self : AudioMetadata) (file : MPCFile) :
    (fileAtSave env self file).ID3v1Tag = file.ID3v1Tag ∧
    (fileAtSave env self file).audioProperties = file.audioProperties := by
  unfold fileAtSave
  cases file.APETag <;> simp

/-- C2, as the code has it. `WriteMetadata` writes to no temporary file: the
stream it opens for writing is on the path of the object's URL, the original
file itself, `save` works on that stream, and no other path is changed. When
`WriteMetadata` fails before the save step (no path for the URL, or the file
is not valid) the disk is exactly as before. When it fails at the save step
the disk is exactly as before provided `save`, when it reports failure, has
written nothing. -/
theorem failed_write_leaves_disk (c : Constants) (env : Env) (disk : Disk)
    (self : AudioMetadata) (error : CFErrorOut) :
    (env.CFURLGetFileSystemRepresentation self.mURL = none →
      (WriteMetadata c env disk self error).returned = false ∧
      (WriteMetadata c env disk self error).disk = disk) ∧
    (∀ buf, env.CFURLGetFileSystemRepresentation self.mURL = some buf →
      (env.MPCFile_new disk { fileName := buf, openReadOnly := false } false).isValid = false →
      (WriteMetadata c env disk self error).returned = false ∧
      (WriteMetadata c env disk self error).disk = disk) ∧
    (SaveFailsBeforeWriting env →
      (WriteMetadata c env disk self error).returned = false →
      (WriteMetadata c env disk self error).disk = disk) ∧
    (∀ buf, env.CFURLGetFileSystemRepresentation self.mURL = some buf →
      (WriteMetadata c env disk self error).stream
        = some { fileName := buf, openReadOnly := false }) ∧
    (∀ buf, env.CFURLGetFileSystemRepresentation self.mURL = some buf →
      (env.MPCFile_new disk { fileName := buf, openReadOnly := false } false).isValid = true →
      (WriteMetadata c env disk self error).disk buf
        = (env.save disk { fileName := buf, openReadOnly := false }
            (fileAtSave env self
              (env.MPCFile_new disk { fileName := buf, openReadOnly := false } false))).2) ∧
    (∀ buf, env.CFURLGetFileSystemRepresentation self.mURL = some buf →
      ∀ other, other ≠ buf → (WriteMetadata c env disk self error).disk other = disk other) := by
  refine ⟨fun h => ?_, fun buf hpath hvalid => ?_, fun hquiet hret => ?_, fun buf hpath => ?_,
    fun buf hpath hvalid => ?_, fun buf hpath other hne => ?_⟩
  · rw [WriteMetadata_no_path c env disk self error h]
    exact ⟨rfl, rfl⟩
  · rw [WriteMetadata_invalid c env disk self error buf hpath hvalid]
    exact ⟨rfl, rfl⟩
  · rcases WriteMetadata_cases c env disk self error with
      ⟨_, h⟩ | ⟨_, _, _, h⟩ | ⟨b, file, saved, _, _, _, hsaved, hfail, h⟩
        | ⟨_, _, _, _, _, _, _, _, h⟩
    · rw [h]
    · rw [h]
    · rw [h]
      have e : saved.2 = disk b := by
        rw [hsaved] at hfail ⊢
        exact hquiet disk _ _ hfail
      show Function.update disk b saved.2 = disk
      rw [e]
      exact Function.update_eq_self b disk
    · rw [h] at hret
      cases hret
  · rcases WriteMetadata_cases c env disk self error with
      ⟨hn, _⟩ | ⟨b, hb, _, h⟩ | ⟨b, _, _, hb, _, _, _, _, h⟩ | ⟨b, _, _, hb, _, _, _, _, h⟩
    · rw [hn] at hpath
      cases hpath
    all_goals
      have e : b = buf := Option.some.inj (hb.symm.trans hpath)
      subst e
      rw [h]
  · cases hs : (env.save disk { fileName := buf, openReadOnly := false }
      (fileAtSave env self
        (env.MPCFile_new disk { fileName := buf, openReadOnly := false } false))).1 with
    | false =>
      rw [WriteMetadata_save_failed c env disk self error buf hpath hvalid hs]
      exact Function.update_same _ _ _
    | true =>
      rw [WriteMetadata_saved c env disk self error buf hpath hvalid hs]
      exact Function.update_same _ _ _
  · rcases WriteMetadata_cases c env disk self error with
      ⟨_, h⟩ | ⟨_, _, _, h⟩ | ⟨b, _, _, hb, _, _, _, _, h⟩ | ⟨b, _, _, hb, _, _, _, _, h⟩
    · rw [h]
    · rw [h]
    · rw [h]
      have e : b = buf := Option.some.inj (hb.symm.trans hpath)
      subst e
      exact Function.update_noteq hne _ _
    · rw [h]
      have e : b = buf := Option.some.inj (hb.symm.trans hpath)
      subst e
      exact Function.update_noteq hne _ _

/-- A save that fails at its read-only check: `WriteMetadata` returns false
and the disk is as it was. -/
theorem failed_write_leaves_disk_witness :
    (WriteMetadata exampleConstants (readOnlyEnv (exampleFile none (some (tagWithArtist "B"))))
        exampleDisk exampleObject none).disk = exampleDisk :=
  (failed_write_leaves_disk exampleConstants
    (readOnlyEnv (exampleFile none (some (tagWithArtist "B")))) exampleDisk exampleObject
    none).2.2.1 (fun _ _ _ _ => rfl) (by decide)

/-- C2 fails as stated: in a call of `WriteMetadata` that fails at the save
step, the stream that was opened for writing and handed to `save` is on
`/music/song.mpc`, the path of the object's URL: the write goes to the
original file, not to a temporary file that would replace it. -/
theorem failed_write_was_aimed_at_the_original_file :
    (WriteMetadata exampleConstants (readOnlyEnv (exampleFile none (some (tagWithArtist "B"))))
        exampleDisk exampleObject none).returned = false ∧
    (readOnlyEnv (exampleFile none (some (tagWithArtist "B")))).CFURLGetFileSystemRepresentation
        exampleObject.mURL = some "/music/song.mpc" ∧
    (WriteMetadata exampleConstants (readOnlyEnv (exampleFile none (some (tagWithArtist "B"))))
        exampleDisk exampleObject none).stream
      = some { fileName := "/music/song.mpc", openReadOnly := false } ∧
    (WriteMetadata exampleConstants (readOnlyEnv (exampleFile none (some (tagWithArtist "B"))))
        exampleDisk exampleObject none).calls
      = [Call.SetAPETagFromMetadata (tagWithArtist "B"),
          Call.save
            { isValid := true
              audioProperties := none
              ID3v1Tag := none
              APETag := some (tagWithArtist "Z") }] := by
  decide

/-- C3, as the code has it: whenever `WriteMetadata` returns true for a file
that has an APE tag, `SetAPETagFromMetadata` was applied to that tag, the file
was saved with the tag the setter left, and the merge followed. For a file
with no APE tag the setter is not called: the file is saved as it was opened,
and the merge follows. -/
theorem APE_tag_is_set_when_present (c : Constants) (env : Env) (disk : Disk)
    (self : AudioMetadata) (error : CFErrorOut) (buf : Path)
    (hpath : env.CFURLGetFileSystemRepresentation self.mURL = some buf)
    (hret : (WriteMetadata c env disk self error).returned = true) :
    (∀ tag, (env.MPCFile_new disk { fileName := buf, openReadOnly := false } false).APETag
        = some tag →
      (WriteMetadata c env disk self error).calls
        = [Call.SetAPETagFromMetadata tag,
            Call.save
              { isValid := true
                audioProperties :=
                  (env.MPCFile_new disk { fileName := buf, openReadOnly := false }
                    false).audioProperties
                ID3v1Tag :=
                  (env.MPCFile_new disk { fileName := buf, openReadOnly := false } false).ID3v1Tag
                APETag := some (env.SetAPETagFromMetadata self tag) },
            Call.MergeChangedMetadataIntoMetadata]) ∧
    ((env.MPCFile_new disk { fileName := buf, openReadOnly := false } false).APETag = none →
      (WriteMetadata c env disk self error).calls
        = [Call.save (env.MPCFile_new disk { fileName := buf, openReadOnly := false } false),
            Call.MergeChangedMetadataIntoMetadata]) := by
  rcases WriteMetadata_cases c env disk self error with
    ⟨_, h⟩ | ⟨_, _, _, h⟩ | ⟨_, _, _, _, _, _, _, _, h⟩ | ⟨b, file, _, hb, hfile, hv, _, _, h⟩
  · rw [h] at hret; cases hret
  · rw [h] at hret; cases hret
  · rw [h] at hret; cases hret
  · have e : b = buf := Option.some.inj (hb.symm.trans hpath)
    subst e
    subst hfile
    rw [h]
    constructor
    · intro tag htag
      simp [callsBeforeSave, fileAtSave, htag, hv]
    · intro hnone
      simp [callsBeforeSave, fileAtSave, hnone]

/-- Writing the pending artist "Z" to a file whose APE tag has artist "B":
the setter runs on that tag and the file is saved with artist "Z". -/
theorem APE_tag_is_set_when_present_witness :
    (WriteMetadata exampleConstants
        (exampleEnv (exampleFile none (some (tagWithArtist "B"))) (true, some [77, 80, 43, 1]))
        exampleDisk exampleObject none).calls
      = [Call.SetAPETagFromMetadata (tagWithArtist "B"),
          Call.save
            { isValid := true
              audioProperties := none
              ID3v1Tag := none
              APETag := some (tagWithArtist "Z") },
          Call.MergeChangedMetadataIntoMetadata] :=
  (APE_tag_is_set_when_present exampleConstants
    (exampleEnv (exampleFile none (some (tagWithArtist "B"))) (true, some [77, 80, 43, 1]))
    exampleDisk exampleObject none "/music/song.mpc" (by decide) (by decide)).1
    (tagWithArtist "B") (by decide)

/-- C3 fails as stated: for a valid file that has no APE tag, `WriteMetadata`
returns true although the setter was never called, and the file handed to
`save` has no APE tag. -/
theorem write_succeeds_without_setting_an_absent_APE_tag :
    (WriteMetadata exampleConstants
        (exampleEnv (exampleFile (some (tagWithArtist "A")) none) (true, some [77, 80, 43]))
        exampleDisk exampleObject none).returned = true ∧
    (WriteMetadata exampleConstants
        (exampleEnv (exampleFile (some (tagWithArtist "A")) none) (true, some [77, 80, 43]))
        exampleDisk exampleObject none).calls
      = [Call.save
            { isValid := true
              audioProperties := none
              ID3v1Tag := some (tagWithArtist "A")
              APETag := none },
          Call.MergeChangedMetadataIntoMetadata] := by
  decide

/-- C4: `WriteMetadata` follows the read-both/write-one policy. The only
setter it calls is `SetAPETagFromMetadata`, on the file's APE tag; the file
handed to `save` has the ID3v1 tag and the audio properties the file was
opened with. `ReadMetadata`, on a valid file, reads the audio properties, the
ID3v1 tag and the APE tag, in this order. -/
theorem only_the_APE_tag_is_written (c : Constants) (env : Env) (disk : Disk)
    (self : AudioMetadata) (error : CFErrorOut) :
    (env.CFURLGetFileSystemRepresentation self.mURL = none →
      (WriteMetadata c env disk self error).calls = []) ∧
    (∀ buf, env.CFURLGetFileSystemRepresentation self.mURL = some buf →
      (∀ saved, Call.save saved ∈ (WriteMetadata c env disk self error).calls →
        saved.ID3v1Tag
          = (env.MPCFile_new disk { fileName := buf, openReadOnly := false } false).ID3v1Tag ∧
        saved.audioProperties
          = (env.MPCFile_new disk { fileName := buf, openReadOnly := false } false).audioProperties) ∧
      (∀ tag, Call.SetAPETagFromMetadata tag ∈ (WriteMetadata c env disk self error).calls →
        (env.MPCFile_new disk { fileName := buf, openReadOnly := false } false).APETag
          = some tag)) ∧
    (∀ buf, env.CFURLGetFileSystemRepresentation self.mURL = some buf →
      (env.MPCFile_new disk { fileName := buf, openReadOnly := true } true).isValid = true →
      (ReadMetadata c env disk self error).self.mMetadata
        = (fun m => match (env.MPCFile_new disk { fileName := buf, openReadOnly := true }
              true).APETag with
            | some tag => AddAPETagToDictionary c m tag
            | none => m)
          ((fun m => match (env.MPCFile_new disk { fileName := buf, openReadOnly := true }
              true).ID3v1Tag with
            | some tag => AddID3v1TagToDictionary c m tag
            | none => m)
          ((fun m => match (env.MPCFile_new disk { fileName := buf, openReadOnly := true }
              true).audioProperties with
            | some properties => AddAudioPropertiesToDictionary c m properties
            | none => m)
          (CFDictionarySetValue [] c.kPropertiesFormatNameKey
            (CFType.string (CFSTR "Musepack")))))) := by
  refine ⟨fun h => ?_, fun buf hpath => ?_, fun buf hpath hvalid => ?_⟩
  · rw [WriteMetadata_no_path c env disk self error h]
  · have key : ∀ (file : MPCFile) (rest : List Call),
        (∀ tag, Call.SetAPETagFromMetadata tag ∉ rest) →
        (∀ saved, Call.save saved ∈ rest → saved = fileAtSave env self file) →
        (∀ saved, Call.save saved ∈ callsBeforeSave file ++ rest →
          saved.ID3v1Tag = file.ID3v1Tag ∧ saved.audioProperties = file.audioProperties) ∧
        (∀ tag, Call.SetAPETagFromMetadata tag ∈ callsBeforeSave file ++ rest →
          file.APETag = some tag) := by
      intro file rest hset hsave
      constructor
      · intro saved hs
        rcases List.mem_append.mp hs with h1 | h1
        · unfold callsBeforeSave at h1
          cases hape : file.APETag <;> simp [hape] at h1
        · rw [hsave saved h1]
          exact fileAtSave_frame env self file
      · intro tag ht
        rcases List.mem_append.mp ht with h1 | h1
        · unfold callsBeforeSave at h1
          cases hape : file.APETag with
          | none => simp [hape] at h1
          | some t =>
            simp [hape] at h1
            rw [h1]
        · exact absurd h1 (hset tag)
    rcases WriteMetadata_cases c env disk self error with
      ⟨_, h⟩ | ⟨_, _, _, h⟩ | ⟨b, file, _, hb, hfile, _, _, _, h⟩
        | ⟨b, file, _, hb, hfile, _, _, _, h⟩
    · rw [h]; simp
    · rw [h]; simp
    · have e : b = buf := Option.some.inj (hb.symm.trans hpath)
      subst e
      subst hfile
      rw [h]
      exact key _ _ (by simp) (by simp)
    · have e : b = buf := Option.some.inj (hb.symm.trans hpath)
      subst e
      subst hfile
      rw [h]
      exact key _ _ (by simp) (by simp)
  · rw [ReadMetadata_valid c env disk self error buf hpath hvalid]

/-- Writing to a file with both tags: the file handed to `save` has the ID3v1
tag it was opened with. -/
theorem only_the_APE_tag_is_written_witness :
    (some (tagWithArtist "A") : Option Tag)
      = ((exampleEnv (exampleFile (some (tagWithArtist "A")) (some (tagWithArtist "B")))
          (true, some [1])).MPCFile_new exampleDisk
          { fileName := "/music/song.mpc", openReadOnly := false } false).ID3v1Tag ∧
    (none : Option AudioProperties)
      = ((exampleEnv (exampleFile (some (tagWithArtist "A")) (some (tagWithArtist "B")))
          (true, some [1])).MPCFile_new exampleDisk
          { fileName := "/music/song.mpc", openReadOnly := false } false).audioProperties :=
  ((only_the_APE_tag_is_written exampleConstants
    (exampleEnv (exampleFile (some (tagWithArtist "A")) (some (tagWithArtist "B")))
      (true, some [1]))
    exampleDisk exampleObject none).2.1 "/music/song.mpc" (by decide)).1
    { isValid := true
      audioProperties := none
      ID3v1Tag := some (tagWithArtist "A")
      APETag := some (tagWithArtist "Z") }
    (by decide)

end SFB

namespace SFB

open TagLib

/-! ## WriteMetadata: the merge -/

/-- C5: `WriteMetadata` merges the pending changes if and only if it returns
true. On every failure path (no path for the URL, file not valid, save failed)
it returns false, the merge is not called and the object, with both its
dictionaries, is exactly as before. On the one path left, a valid file whose
save succeeds, it returns true, the object is the one the merge leaves, and
the merge is called exactly once, as the last call, right after the save. -/
theorem merge_iff_write_succeeds (c : Constants) (env : Env) (disk : Disk)
    (self : AudioMetadata) (error : CFErrorOut) :
    ((WriteMetadata c env disk self error).returned = false →
      (WriteMetadata c env disk self error).self = self ∧
      Call.MergeChangedMetadataIntoMetadata ∉ (WriteMetadata c env disk self error).calls) ∧
    ((WriteMetadata c env disk self error).returned = true →
      (WriteMetadata c env disk self error).self = env.MergeChangedMetadataIntoMetadata self ∧
      ∃ before saved,
        (WriteMetadata c env disk self error).calls
          = before ++ [Call.save saved, Call.MergeChangedMetadataIntoMetadata] ∧
        Call.MergeChangedMetadataIntoMetadata ∉ before) ∧
    (env.CFURLGetFileSystemRepresentation self.mURL = none →
      (WriteMetadata c env disk self error).returned = false) ∧
    (∀ buf, env.CFURLGetFileSystemRepresentation self.mURL = some buf →
      (env.MPCFile_new disk { fileName := buf, openReadOnly := false } false).isValid = false →
      (WriteMetadata c env disk self error).returned = false) ∧
    (∀ buf, env.CFURLGetFileSystemRepresentation self.mURL = some buf →
      (env.MPCFile_new disk { fileName := buf, openReadOnly := false } false).isValid = true →
      (env.save disk { fileName := buf, openReadOnly := false }
        (fileAtSave env self
          (env.MPCFile_new disk { fileName := buf, openReadOnly := false } false))).1 = false →
      (WriteMetadata c env disk self error).returned = false) ∧
    (∀ buf, env.CFURLGetFileSystemRepresentation self.mURL = some buf →
      (env.MPCFile_new disk { fileName := buf, openReadOnly := false } false).isValid = true →
      (env.save disk { fileName := buf, openReadOnly := false }
        (fileAtSave env self
          (env.MPCFile_new disk { fileName := buf, openReadOnly := false } false))).1 = true →
      (WriteMetadata c env disk self error).returned = true ∧
      (WriteMetadata c env disk self error).self = env.MergeChangedMetadataIntoMetadata self ∧
      (WriteMetadata c env disk self error).calls
        = callsBeforeSave (env.MPCFile_new disk { fileName := buf, openReadOnly := false } false)
          ++ [Call.save (fileAtSave env self
                (env.MPCFile_new disk { fileName := buf, openReadOnly := false } false)),
              Call.MergeChangedMetadataIntoMetadata]) ∧
    (Call.MergeChangedMetadataIntoMetadata ∈ (WriteMetadata c env disk self error).calls
      ↔ (WriteMetadata c env disk self error).returned = true) ∧
    (WriteMetadata c env disk self error).calls.count Call.MergeChangedMetadataIntoMetadata
      = if (WriteMetadata c env disk self error).returned then 1 else 0 := by
  have hfalse : (WriteMetadata c env disk self error).returned = false →
      (WriteMetadata c env disk self error).self = self ∧
      Call.MergeChangedMetadataIntoMetadata ∉ (WriteMetadata c env disk self error).calls := by
    intro hret
    rcases WriteMetadata_cases c env disk self error with
      ⟨_, h⟩ | ⟨_, _, _, h⟩ | ⟨_, file, _, _, _, _, _, _, h⟩ | ⟨_, _, _, _, _, _, _, _, h⟩
    · rw [h]; simp
    · rw [h]; simp
    · rw [h]
      refine ⟨rfl, ?_⟩
      simp only [List.mem_append, List.mem_singleton, not_or]
      exact ⟨merge_not_mem_callsBeforeSave file, by simp⟩
    · rw [h] at hret; cases hret
  have htrue : (WriteMetadata c env disk self error).returned = true →
      (WriteMetadata c env disk self error).self = env.MergeChangedMetadataIntoMetadata self ∧
      ∃ before saved,
        (WriteMetadata c env disk self error).calls
          = before ++ [Call.save saved, Call.MergeChangedMetadataIntoMetadata] ∧
        Call.MergeChangedMetadataIntoMetadata ∉ before := by
    intro hret
    rcases WriteMetadata_cases c env disk self error with
      ⟨_, h⟩ | ⟨_, _, _, h⟩ | ⟨_, _, _, _, _, _, _, _, h⟩ | ⟨_, file, _, _, _, _, _, _, h⟩
    · rw [h] at hret; cases hret
    · rw [h] at hret; cases hret
    · rw [h] at hret; cases hret
    · rw [h]
      exact ⟨rfl, callsBeforeSave file, fileAtSave env self file, rfl,
        merge_not_mem_callsBeforeSave file⟩
  refine ⟨hfalse, htrue, fun h => ?_, fun buf hp hv => ?_, fun buf hp hv hs => ?_,
    fun buf hp hv hs => ?_, ?_, ?_⟩
  · rw [WriteMetadata_no_path c env disk self error h]
  · rw [WriteMetadata_invalid c env disk self error buf hp hv]
  · rw [WriteMetadata_save_failed c env disk self error buf hp hv hs]
  · rw [WriteMetadata_saved c env disk self error buf hp hv hs]
    exact ⟨rfl, rfl, rfl⟩
  · cases hret : (WriteMetadata c env disk self error).returned with
    | false => simpa using (hfalse hret).2
    | true =>
      obtain ⟨_, before, saved, hcalls, _⟩ := htrue hret
      rw [hcalls]
      simp
  · cases hret : (WriteMetadata c env disk self error).returned with
    | false =>
      simpa using List.count_eq_zero_of_not_mem (hfalse hret).2
    | true =>
      obtain ⟨_, before, saved, hcalls, hnot⟩ := htrue hret
      rw [hcalls, List.count_append, List.count_eq_zero_of_not_mem hnot]
      simp [List.count_cons]

/-- A failed save: the object keeps its pending artist "Z" and its artist "X",
and the merge is not called. A successful save of the same file: the call
returns true, the pending artist has been merged, and the merge is the last
call, after the save. -/
theorem merge_iff_write_succeeds_witness :
    ((WriteMetadata exampleConstants
        (exampleEnv (exampleFile none (some (tagWithArtist "B"))) (false, some [77, 80, 43]))
        exampleDisk exampleObject none).self = exampleObject ∧
      Call.MergeChangedMetadataIntoMetadata ∉
        (WriteMetadata exampleConstants
          (exampleEnv (exampleFile none (some (tagWithArtist "B"))) (false, some [77, 80, 43]))
          exampleDisk exampleObject none).calls) ∧
    ((WriteMetadata exampleConstants
        (exampleEnv (exampleFile none (some (tagWithArtist "B"))) (true, some [77, 80, 43, 1]))
        exampleDisk exampleObject none).returned = true ∧
      (WriteMetadata exampleConstants
        (exampleEnv (exampleFile none (some (tagWithArtist "B"))) (true, some [77, 80, 43, 1]))
        exampleDisk exampleObject none).self
        = { mURL := "file:///music/song.mpc"
            mMetadata := [(CFSTR "Artist", CFType.string (CFSTR "Z"))]
            mChangedMetadata := [] } ∧
      (WriteMetadata exampleConstants
        (exampleEnv (exampleFile none (some (tagWithArtist "B"))) (true, some [77, 80, 43, 1]))
        exampleDisk exampleObject none).calls
        = [Call.SetAPETagFromMetadata (tagWithArtist "B"),
            Call.save
              { isValid := true
                audioProperties := none
                ID3v1Tag := none
                APETag := some (tagWithArtist "Z") },
            Call.MergeChangedMetadataIntoMetadata]) :=
  ⟨(merge_iff_write_succeeds exampleConstants
      (exampleEnv (exampleFile none (some (tagWithArtist "B"))) (false, some [77, 80, 43]))
      exampleDisk exampleObject none).1 (by decide),
    (merge_iff_write_succeeds exampleConstants
      (exampleEnv (exampleFile none (some (tagWithArtist "B"))) (true, some [77, 80, 43, 1]))
      exampleDisk exampleObject none).2.2.2.2.2.1 "/music/song.mpc" (by decide) (by decide)
      (by decide)⟩

/-! ## Errors -/

/-- C6 at an object whose URL has no file-system representation: both
`ReadMetadata` and `WriteMetadata` return false and leave the caller's error
slot as it was, empty. -/
theorem no_error_when_the_URL_has_no_path :
    (ReadMetadata exampleConstants (exampleEnv (exampleFile none none) (true, none)) exampleDisk
        remoteObject (some none)).returned = false ∧
    (ReadMetadata exampleConstants (exampleEnv (exampleFile none none) (true, none)) exampleDisk
        remoteObject (some none)).error = some none ∧
    (WriteMetadata exampleConstants (exampleEnv (exampleFile none none) (true, none)) exampleDisk
        remoteObject (some none)).returned = false ∧
    (WriteMetadata exampleConstants (exampleEnv (exampleFile none none) (true, none)) exampleDisk
        remoteObject (some none)).error = some none := by
  decide

/-- C7, as the code has it: a file that is not a valid Musepack file and a
failed save are both reported in `AudioMetadataErrorDomain` with the one code
`AudioMetadataInputOutputError`, for the object's URL; the two errors differ in
the failure reason, "Not a Musepack file" against "Unable to write metadata". -/
theorem failures_share_the_input_output_code (c : Constants) (env : Env) (disk : Disk)
    (self : AudioMetadata) (slot : Option CFError) :
    (∀ buf, env.CFURLGetFileSystemRepresentation self.mURL = some buf →
      (env.MPCFile_new disk { fileName := buf, openReadOnly := true } true).isValid = false →
      (ReadMetadata c env disk self (some slot)).error
        = reportError c env self (CFSTR "Not a Musepack file") (some slot)) ∧
    (∀ buf, env.CFURLGetFileSystemRepresentation self.mURL = some buf →
      (env.MPCFile_new disk { fileName := buf, openReadOnly := false } false).isValid = false →
      (WriteMetadata c env disk self (some slot)).error
        = reportError c env self (CFSTR "Not a Musepack file") (some slot)) ∧
    (∀ buf, env.CFURLGetFileSystemRepresentation self.mURL = some buf →
      (env.MPCFile_new disk { fileName := buf, openReadOnly := false } false).isValid = true →
      (WriteMetadata c env disk self (some slot)).returned = false →
      (WriteMetadata c env disk self (some slot)).error
        = reportError c env self (CFSTR "Unable to write metadata") (some slot)) ∧
    (∀ reason, ∃ e, reportError c env self reason (some slot) = some (some e) ∧
      e.domain = c.AudioMetadataErrorDomain ∧
      e.code = c.AudioMetadataInputOutputError ∧
      e.url = self.mURL ∧
      e.failureReason = env.CFCopyLocalizedString reason) := by
  refine ⟨fun buf hp hv => ?_, fun buf hp hv => ?_, fun buf hp hv hret => ?_,
    fun reason => ⟨_, rfl, rfl, rfl, rfl, rfl⟩⟩
  · simp [ReadMetadata, hp, hv, reportError, CFDictionaryRemoveAllValues]
  · rw [WriteMetadata_invalid c env disk self _ buf hp hv]
  · cases hs : (env.save disk { fileName := buf, openReadOnly := false }
      (fileAtSave env self
        (env.MPCFile_new disk { fileName := buf, openReadOnly := false } false))).1 with
    | false => rw [WriteMetadata_save_failed c env disk self _ buf hp hv hs]
    | true =>
      rw [WriteMetadata_saved c env disk self _ buf hp hv hs] at hret
      cases hret

/-- A failed save is reported with the input/output code and the reason
"Unable to write metadata". -/
theorem failures_share_the_input_output_code_witness :
    (WriteMetadata exampleConstants
        (exampleEnv (exampleFile none (some (tagWithArtist "B"))) (false, some [77, 80, 43]))
        exampleDisk exampleObject (some none)).error
      = reportError exampleConstants
          (exampleEnv (exampleFile none (some (tagWithArtist "B"))) (false, some [77, 80, 43]))
          exampleObject (CFSTR "Unable to write metadata") (some none) :=
  (failures_share_the_input_output_code exampleConstants
    (exampleEnv (exampleFile none (some (tagWithArtist "B"))) (false, some [77, 80, 43]))
    exampleDisk exampleObject none).2.2.1 "/music/song.mpc" (by decide) (by decide) (by decide)

/-- C7 fails as stated: writing to a file that is not a Musepack file and
writing to a Musepack file whose save fails yield errors with the same code,
and so does reading the file that is not a Musepack file. -/
theorem invalid_file_and_failed_save_yield_the_same_code :
    reportedFailureReason
        (WriteMetadata exampleConstants (exampleEnv invalidFile (true, none)) exampleDisk
          exampleObject (some none)).error = some (CFSTR "Not a Musepack file") ∧
    reportedFailureReason
        (WriteMetadata exampleConstants
          (exampleEnv (exampleFile none (some (tagWithArtist "B"))) (false, some [77, 80, 43]))
          exampleDisk exampleObject (some none)).error = some (CFSTR "Unable to write metadata") ∧
    reportedFailureReason
        (ReadMetadata exampleConstants (exampleEnv invalidFile (true, none)) exampleDisk
          exampleObject (some none)).error = some (CFSTR "Not a Musepack file") ∧
    reportedCode
        (WriteMetadata exampleConstants (exampleEnv invalidFile (true, none)) exampleDisk
          exampleObject (some none)).error
      = reportedCode
        (WriteMetadata exampleConstants
          (exampleEnv (exampleFile none (some (tagWithArtist "B"))) (false, some [77, 80, 43]))
          exampleDisk exampleObject (some none)).error ∧
    reportedCode
        (ReadMetadata exampleConstants (exampleEnv invalidFile (true, none)) exampleDisk
          exampleObject (some none)).error
      = reportedCode
        (WriteMetadata exampleConstants
          (exampleEnv (exampleFile none (some (tagWithArtist "B"))) (false, some [77, 80, 43]))
          exampleDisk exampleObject (some none)).error ∧
    reportedCode
        (WriteMetadata exampleConstants
          (exampleEnv (exampleFile none (some (tagWithArtist "B"))) (false, some [77, 80, 43]))
          exampleDisk exampleObject (some none)).error = some 2 := by
  decide

end SFB
